import Mathlib

/-!
A shallow embedding of `src/utils/dialogEngine.js` (the evolved engine with
pagination, `ended` flag and soft domain guessing) of the SG Social Good
Assistant, together with theorems about its behaviour.

Modelling conventions:
* JS strings are Lean `String`s; char-level work uses `List Char`.
* `String.prototype.toLowerCase` is modelled on ASCII letters (`lowChar`);
  all table entries and all engine-generated text are ASCII or Chinese, and
  Chinese has no case.
* The regex `\s` class is modelled by the six ASCII whitespace characters.
* The regex class `[^\p{L}\p{N}\s]` of `tokenize` is modelled by `keepChar`:
  ASCII alphanumerics plus CJK unified ideographs (the alphabets occurring in
  the knowledge base and the tables) plus whitespace.
* Every regex in the engine is an alternation of literal phrases, optionally
  wrapped in `\b ... \b` and optionally case-insensitive; `SynRule` captures
  exactly that shape.  Every `\b`-wrapped alternative in the source starts and
  ends with a word character (`[A-Za-z0-9_]`), so the boundary condition is:
  the neighbouring character, if any, is not a word character.
  `String.replace` without the `g` flag replaces only the leftmost match;
  alternatives are tried left to right at each position, as JS does.
* `kb` (the imported JSON knowledge base, an external collaborator per the
  design) is a parameter of every function that reads it.
* JS truthiness on strings ("" is falsy) and `x || y` defaults are modelled
  explicitly where they occur.
* The only reachable runtime fault of the engine is `SET_DOMAIN` with a
  `domainId` outside the domain table (a `TypeError` on `null.en`); engine
  entry points therefore return `Except String`.
-/

/-- JS `\s` on the engine's character set: space, tab, LF, VT, FF, CR. -/
def jsWs (c : Char) : Bool :=
  c = ' ' || c = '\t' || c = '\n' || c = '\r' || c.toNat = 11 || c.toNat = 12

/-- JS regex word character `[A-Za-z0-9_]` (the `\b` class without the `u` flag). -/
def isWordChar (c : Char) : Bool := c.isAlphanum || c = '_'

/-- Characters kept by `tokenize`'s `[^\p{L}\p{N}\s]+ -> " "` replacement:
letters/digits (ASCII or CJK) and whitespace. -/
def keepChar (c : Char) : Bool :=
  c.isAlphanum || (0x4E00 ≤ c.toNat && c.toNat ≤ 0x9FFF) || jsWs c

/-- ASCII lower-casing of one character (model of `toLowerCase`). -/
def lowChar (c : Char) : Char :=
  if 65 ≤ c.toNat ∧ c.toNat ≤ 90 then Char.ofNat (c.toNat + 32) else c

/-- Model of `String.prototype.toLowerCase`. -/
def strLower (s : String) : String := ⟨s.data.map lowChar⟩

/-- Model of `String.prototype.trim`. -/
def jsTrim (s : String) : String :=
  ⟨((s.data.dropWhile jsWs).reverse.dropWhile jsWs).reverse⟩

/-- Containment-at-head test (used for `String.prototype.includes`). -/
def occursAt : List Char → List Char → Bool
  | [], _ => true
  | _ :: _, [] => false
  | a :: xs, b :: ys => (a = b && leadMatch xs ys)
where
  leadMatch : List Char → List Char → Bool
    | [], _ => true
    | _ :: _, [] => false
    | a :: xs, b :: ys => a = b && leadMatch xs ys

/-- `sub` occurs somewhere in `hay`. -/
def occursIn (sub hay : List Char) : Bool :=
  match hay with
  | [] => occursAt sub []
  | _ :: t => occursAt sub hay || occursIn sub t

/-- Model of `hay.includes(sub)` on JS strings. -/
def strIncludes (hay sub : String) : Bool := occursIn sub.data hay.data

/-- One engine regex: an alternation of literal phrases, optionally wrapped in
`\b...\b` (`wordB`), optionally case-insensitive (`ci`), with the replacement
text `norm` (unused for pure trigger tests). -/
structure SynRule where
  alts : List String
  wordB : Bool
  ci : Bool
  norm : String

/-- Character comparison under the optional `i` flag. -/
def chEq (ci : Bool) (a b : Char) : Bool :=
  if ci then lowChar a = lowChar b else a = b

/-- Try to match one literal alternative at the head of `t`; on success return
the remaining characters. -/
def altMatch (ci : Bool) : List Char → List Char → Option (List Char)
  | [], rest => some rest
  | _ :: _, [] => none
  | a :: as, c :: cs => if chEq ci a c then altMatch ci as cs else none

/-- Right `\b` condition after a match (alternatives end in word characters). -/
def boundaryEndOk (wb : Bool) (rest : List Char) : Bool :=
  !wb || (match rest with | [] => true | c :: _ => !isWordChar c)

/-- Left `\b` condition before a match (alternatives begin with word characters). -/
def boundaryStartOk (wb : Bool) (prev : Option Char) : Bool :=
  !wb || (match prev with | none => true | some c => !isWordChar c)

/-- Try the rule's alternatives, in order, at the current position. -/
def tryAlts (r : SynRule) (t : List Char) : Option (List Char) :=
  r.alts.findSome? fun a =>
    match altMatch r.ci a.data t with
    | some rest => if boundaryEndOk r.wordB rest then some rest else none
    | none => none

/-- Leftmost-match replacement of rule `r` in `t` (`prev` is the character
just before the current position). Returns `none` when the rule does not
match, mirroring `String.replace` leaving the string unchanged. -/
def replFirst (r : SynRule) : Option Char → List Char → Option (List Char)
  | _, [] => none
  | prev, c :: cs =>
    if boundaryStartOk r.wordB prev then
      match tryAlts r (c :: cs) with
      | some rest => some (r.norm.data ++ rest)
      | none => (replFirst r (some c) cs).map (c :: ·)
    else
      (replFirst r (some c) cs).map (c :: ·)

/-- `t.replace(rule, rule.norm)` (no `g` flag: first match only). -/
def applyRule (t : List Char) (r : SynRule) : List Char :=
  (replFirst r none t).getD t

/-- `rule.test(s)`. -/
def ruleTest (r : SynRule) (s : String) : Bool := (replFirst r none s.data).isSome

/-- `regexList.some(re => re.test(raw))`. -/
def containsAny (raw : String) (rs : List SynRule) : Bool :=
  rs.any fun r => ruleTest r raw

/-- The `SYNONYMS` rewrite table (second-generation engine), with `bills?`
style optional letters expanded into the two alternatives in greedy order. -/
def SYNONYMS : List SynRule := [
  ⟨["financial aid", "cash help", "money help", "no money", "broke",
    "bills help", "bill help", "overdue bills", "overdue bill", "arrears",
    "low income", "debt"], true, true, "financial aid"⟩,
  ⟨["housing grant", "rental support", "rent help", "no place to stay",
    "eviction", "evicted", "homeless", "shelter", "sleeping outside"],
    true, true, "housing"⟩,
  ⟨["health", "healthcare", "medical", "sick", "ill", "clinic", "doctor",
    "gp", "polyclinic", "medicine", "medication", "dental"],
    true, true, "medical"⟩,
  ⟨["hospital bill", "ward", "a&e", "emergency room",
    "cannot afford hospital", "cant afford hospital"],
    true, true, "hospital bill"⟩,
  ⟨["medical subsidy", "clinic subsidy", "medifund", "chas", "medisave",
    "medishield"], true, true, "medical"⟩,
  ⟨["senior support", "elderly", "caregiver", "home care"],
    true, true, "seniors"⟩,
  ⟨["disability", "wheelchair", "assistive", "pwd", "sgenable"],
    true, true, "disability"⟩,
  ⟨["school fees", "childcare", "preschool", "student care", "kifas", "ecda"],
    true, true, "education"⟩,
  ⟨["job", "employment", "unemployed", "training", "upskill", "skillsfuture"],
    true, true, "employment"⟩,
  ⟨["mental health", "anxiety", "depression", "counselling", "therapy",
    "stressed", "overwhelmed", "panic", "suicid"],
    true, true, "mental health"⟩,
  ⟨["legal aid", "lawyer", "divorce", "court", "legal"], true, true, "legal"⟩,
  ⟨["经济援助", "现金补助", "没钱", "我很穷", "生活费", "账单", "欠费", "补贴", "发放"],
    false, false, "financial aid"⟩,
  ⟨["住房", "租房", "租金补贴", "被驱逐", "驱逐通知", "没地方住", "无家可归", "收容", "露宿"],
    false, false, "housing"⟩,
  ⟨["健康", "生病", "看病", "医疗", "医药费", "药", "药费", "太贵", "诊所", "医生",
    "医院账单", "住院费", "急诊", "A&E", "社工"], false, true, "medical"⟩,
  ⟨["长者", "老人", "照护", "护理", "照护者", "看护"], false, false, "seniors"⟩,
  ⟨["残障", "残疾", "轮椅", "辅助器材", "助听器"], false, false, "disability"⟩,
  ⟨["学费", "幼儿园", "托儿", "学生托管", "课后照护"], false, false, "education"⟩,
  ⟨["工作", "就业", "失业", "培训", "技能", "课程补贴"], false, false, "employment"⟩,
  ⟨["心理", "抑郁", "焦虑", "压力很大", "崩溃", "想不开", "自杀", "辅导"],
    false, false, "mental health"⟩,
  ⟨["法律援助", "离婚", "律师", "法庭", "法律"], false, false, "legal"⟩]

def SENSITIVE_TRIGGERS : List SynRule := [
  ⟨["suicide", "kill myself", "self-harm", "end my life"], true, true, ""⟩,
  ⟨["自杀", "轻生", "想不开", "伤害自己", "结束生命"], false, false, ""⟩]

def URGENT_TRIGGERS : List SynRule := [
  ⟨["no place to stay today", "no place to stay tonight", "sleeping outside",
    "evicted today", "urgent", "emergency", "tonight"], true, true, ""⟩,
  ⟨["今天没地方住", "今晚没地方睡", "紧急", "急需", "被赶出来", "露宿", "马上需要"],
    false, false, ""⟩]

/-- `normalizeText`: trim, then run every synonym rule (first match only),
each rule seeing the previous rule's output. -/
def normalizeText (raw : String) : String :=
  ⟨SYNONYMS.foldl applyRule (jsTrim raw).data⟩

def STOPWORDS : List String := [
  "the", "a", "an", "to", "for", "and", "or", "of", "in", "on", "at", "is",
  "are", "am", "i", "me", "my", "we", "our", "you", "your", "they", "them",
  "this", "that", "need", "help", "please", "can", "could", "want", "looking",
  "apply", "get", "with", "from", "about", "into", "as", "it", "im", "i\x27m",
  "我", "我们", "你", "你们", "需要", "想", "申请", "帮助", "怎么", "如何", "有没有",
  "可以", "吗", "要", "找", "想要", "一下", "现在", "这个", "那个"]

/-- Split into maximal whitespace-free runs (model of
`split(/\s+/).filter(Boolean)`). -/
def splitWsGo : List Char → List Char → List (List Char)
  | acc, [] => if acc.isEmpty then [] else [acc.reverse]
  | acc, c :: cs =>
    if jsWs c then
      (if acc.isEmpty then splitWsGo [] cs else acc.reverse :: splitWsGo [] cs)
    else splitWsGo (c :: acc) cs

def splitWs (l : List Char) : List (List Char) := splitWsGo [] l

/-- `tokenize`: normalize, lower-case, strip punctuation to spaces, split on
whitespace, drop stopwords. -/
def tokenize (raw : String) : List String :=
  let t := (strLower (normalizeText raw)).data.map fun c =>
    if keepChar c then c else ' '
  ((splitWs t).map fun l => String.mk l).filter fun w => !STOPWORDS.contains w

/-- `tokens.join(" ")`, character level. -/
def intercalSp : List (List Char) → List Char
  | [] => []
  | [w] => w
  | w :: ws => w ++ ' ' :: intercalSp ws

/-- `tokens.join(" ")` on strings. -/
def joinSp (ws : List String) : String := ⟨intercalSp (ws.map String.data)⟩

/-- One row of the `DOMAIN` table. -/
structure DomainRec where
  id : String
  cat : String
  en : String
  zh : String
deriving DecidableEq

def DOMAIN : List DomainRec := [
  ⟨"financial", "financial_assistance", "Financial", "经济援助"⟩,
  ⟨"housing", "housing_assistance", "Housing", "住房"⟩,
  ⟨"healthcare", "healthcare_support", "Healthcare", "医疗"⟩,
  ⟨"seniors", "elderly_support", "Seniors", "长者支持"⟩,
  ⟨"disability", "disability_support", "Disability", "残障支持"⟩,
  ⟨"legal", "legal_support", "Legal", "法律援助"⟩,
  ⟨"mental", "mental_health_support", "Mental health", "心理支持"⟩]

/-- `DOMAIN.find(d => d.id === id) || null`; a `null` id never matches. -/
def domainById (id? : Option String) : Option DomainRec :=
  match id? with
  | none => none
  | some i => DOMAIN.find? fun d => d.id = i

/-- A single-alternation `\b`-wrapped regex test (e.g. `/\bhousing\b/`). -/
def bWordTest (phrases : List String) (s : String) : Bool :=
  ruleTest ⟨phrases, true, false, ""⟩ s

/-- A plain (unanchored) alternation regex test (e.g. `/eviction|homeless/`). -/
def subAnyTest (phrases : List String) (s : String) : Bool :=
  phrases.any fun p => strIncludes s p

/-- Hard domain detection over the normalized lower-cased text, first matching
probe wins, in the fixed order financial, housing, healthcare, seniors,
disability, legal, mental. -/
def detectDomainIdFromText (raw : String) : Option String :=
  let t := strLower (normalizeText raw)
  if bWordTest ["financial aid"] t || bWordTest ["comcare"] t ||
      subAnyTest ["assurance", "gstv", "cdc vouchers", "workfare", "wis"] t then
    some "financial"
  else if bWordTest ["housing"] t ||
      subAnyTest ["eviction", "evicted", "homeless", "rental", "shelter",
        "no place to stay"] t then
    some "housing"
  else if bWordTest ["medical"] t || bWordTest ["health"] t ||
      subAnyTest ["clinic", "doctor", "gp", "polyclinic", "chas", "medifund",
        "medisave", "medishield", "hospital bill"] t then
    some "healthcare"
  else if bWordTest ["seniors"] t ||
      subAnyTest ["elderly", "caregiver", "silver support", "aic"] t then
    some "seniors"
  else if bWordTest ["disability"] t ||
      subAnyTest ["pwd", "sgenable", "assistive", "atf", "eec"] t then
    some "disability"
  else if bWordTest ["legal"] t ||
      subAnyTest ["lab", "lawyer", "divorce", "court", "legal aid"] t then
    some "legal"
  else if bWordTest ["mental health"] t ||
      subAnyTest ["anxiety", "depression", "mindline", "1771", "stressed",
        "overwhelmed"] t then
    some "mental"
  else none

/-- `DOMAIN_HINTS[id] || []`. -/
def DOMAIN_HINTS (id : String) : List String :=
  if id = "financial" then
    ["financial aid", "comcare", "gstv", "assurance", "cdc", "workfare", "wis",
     "cash", "bills"]
  else if id = "housing" then
    ["housing", "rent", "rental", "hdb", "irh", "pphs", "eviction", "homeless",
     "shelter"]
  else if id = "healthcare" then
    ["medical", "clinic", "doctor", "chas", "medifund", "medisave",
     "medishield", "hospital bill", "health"]
  else if id = "seniors" then
    ["seniors", "elderly", "caregiver", "aic", "silver support"]
  else if id = "disability" then
    ["disability", "pwd", "sgenable", "assistive", "atf", "eec"]
  else if id = "legal" then
    ["legal", "lab", "lawyer", "divorce", "court", "legal aid"]
  else if id = "mental" then
    ["mental health", "mindline", "1771", "anxiety", "depression", "stressed",
     "overwhelmed"]
  else []

/-- `normalizeText(h).toLowerCase()` applied to a hint phrase. -/
def hintNorm (h : String) : String := strLower (normalizeText h)

/-- The per-domain accumulation loop of `softGuessDomainId`: +3 per hint
phrase contained in the text, +1 per token contained in some hint phrase,
+1 when the text contains the domain's id. -/
def domainSoftScore (t : String) (tokens : List String) (d : DomainRec) : Nat :=
  let hints := DOMAIN_HINTS d.id
  let s1 := hints.foldl (fun s h => if strIncludes t (hintNorm h) then s + 3 else s) 0
  let s2 := tokens.foldl
    (fun s tok => if hints.any (fun h => strIncludes (hintNorm h) tok) then s + 1 else s) s1
  if strIncludes t d.id then s2 + 1 else s2

/-- Soft domain guess: best strictly-improving score over `DOMAIN`, returned
only when the best score reaches 3. -/
def softGuessDomainId (raw : String) : Option String :=
  let t := strLower (normalizeText raw)
  let tokens := tokenize t
  let best := DOMAIN.foldl
    (fun best d =>
      let s := domainSoftScore t tokens d
      if best.2 < s then (some d.id, s) else best)
    ((none : Option String), (0 : Nat))
  if 3 ≤ best.2 then best.1 else none

/-- One knowledge-base scheme record; absent JSON fields are modelled by the
falsy defaults the engine substitutes (`""` / `[]`). -/
structure Scheme where
  id : String
  category : String
  name_en : String
  name_zh : String
  summary_en : String
  summary_zh : String
  keywords_en : List String
  keywords_zh : List String
  eligibility_en : List String
  eligibility_zh : List String
  how_to_apply_en : List String
  how_to_apply_zh : List String
  official_links : List String
deriving DecidableEq

/-- One knowledge-base entry point (hotline etc.); the contact block is kept
opaque. -/
structure EntryPoint where
  id : String
  name_en : String
  name_zh : String
  links : List String
  contacts : Option String
deriving DecidableEq

/-- The imported `sg_services_kb.json`, an external immutable collaborator. -/
structure KBase where
  schemes : List Scheme
  entry_points : List EntryPoint
deriving DecidableEq

/-- `[name, summary, keywords, eligibility, how-to-apply].filter(Boolean)
.join(" ")`, normalized and lower-cased. -/
def schemeTextForMatch (s : Scheme) : String :=
  let all := ([s.name_en, s.name_zh, s.summary_en, s.summary_zh]
    ++ s.keywords_en ++ s.keywords_zh ++ s.eligibility_en ++ s.eligibility_zh
    ++ s.how_to_apply_en ++ s.how_to_apply_zh).filter (· ≠ "")
  strLower (normalizeText (joinSp all))

/-- JS truthiness of `categoryBoost && scheme.category === categoryBoost`. -/
def boostApplies (categoryBoost : Option String) (s : Scheme) : Bool :=
  match categoryBoost with
  | some cb => cb ≠ "" && s.category = cb
  | none => false

/-- `scoreScheme(queryTokens, scheme, categoryBoost)`: +3 per token in the
match text, +10 on category agreement, +2 per token in the name fields,
+2 extra on category agreement for queries of at most two tokens. -/
def scoreScheme (queryTokens : List String) (scheme : Scheme)
    (categoryBoost : Option String) : Nat :=
  let hay := schemeTextForMatch scheme
  let score1 := queryTokens.foldl
    (fun sc tok => if strIncludes hay tok then sc + 3 else sc) 0
  let score2 := if boostApplies categoryBoost scheme then score1 + 10 else score1
  let nameHay := strLower (normalizeText (scheme.name_en ++ " " ++ scheme.name_zh))
  let score3 := queryTokens.foldl
    (fun sc tok => if strIncludes nameHay tok then sc + 2 else sc) score2
  if queryTokens.length ≤ 2 && boostApplies categoryBoost scheme then score3 + 2
  else score3

/-- A scheme paired with its score for the current query. -/
structure ScoredS where
  s : Scheme
  score : Nat
deriving DecidableEq

/-- Stable descending insertion: an element goes before the first element
whose score it reaches, hence after every earlier element of equal score.
This is the unique output of JS's stable `sort((a, b) => b.score - a.score)`. -/
def insertScored (x : ScoredS) : List ScoredS → List ScoredS
  | [] => [x]
  | y :: ys => if y.score ≤ x.score then x :: y :: ys else y :: insertScored x ys

def sortDesc : List ScoredS → List ScoredS
  | [] => []
  | x :: xs => insertScored x (sortDesc xs)

def MAX_MATCHES_CAP : Nat := 50
def DEFAULT_PAGE_SIZE : Int := 3

/-- `d?.cat || null`. -/
def jsOrNullStr (o : Option String) : Option String :=
  match o with
  | some s => if s = "" then none else some s
  | none => none

/-- `kb.schemes.map(s => ({s, score: scoreScheme(tokens, s, d?.cat || null)}))`. -/
def scoredList (kb : KBase) (query : String) (domainId : Option String) :
    List ScoredS :=
  let d := domainById domainId
  let tokens := tokenize query
  kb.schemes.map fun s =>
    ⟨s, scoreScheme tokens s (jsOrNullStr (d.map (·.cat)))⟩

structure Retrieval where
  matched : List ScoredS
  lowConfidence : Bool
  bestScore : Nat
deriving DecidableEq

/-- `retrieveAllSchemes({query, domainId})`: score all, sort stably
descending, keep positive scores up to `MAX_MATCHES_CAP`, report
`lowConfidence = bestScore < 5`. -/
def retrieveAllSchemes (kb : KBase) (query : String) (domainId : Option String) :
    Retrieval :=
  let scored := sortDesc (scoredList kb query domainId)
  let matched := (scored.filter fun x => 0 < x.score).take MAX_MATCHES_CAP
  let bestScore := match scored with | [] => 0 | x :: _ => x.score
  ⟨matched, bestScore < 5, bestScore⟩

/-- JS `Array.prototype.slice(a, b)` with clamping and negative-index wrap. -/
def jsSlice {α : Type} (l : List α) (a b : Int) : List α :=
  let len : Int := l.length
  let s : Int := if a < 0 then max (len + a) 0 else min a len
  let e : Int := if b < 0 then max (len + b) 0 else min b len
  (l.drop s.toNat).take (e - s).toNat

/-- `lang === "zh" ? (zh || en) : (en || zh)` on plain strings. -/
def langPick (lang en zh : String) : String :=
  if lang = "zh" then (if zh = "" then en else zh)
  else (if en = "" then zh else en)

/-- `a || b` on possibly-undefined strings. -/
def jsOrOpt (a b : Option String) : Option String :=
  match a with
  | some s => if s = "" then b else some s
  | none => b

/-- `langPick` when both arguments may be `undefined` (`domain?.en`). -/
def langPickOpt (lang : String) (en zh : Option String) : Option String :=
  if lang = "zh" then jsOrOpt zh en else jsOrOpt en zh

/-- JS template-literal interpolation of a possibly-undefined string. -/
def jsStr (o : Option String) : String := o.getD "undefined"

/-- A button-click action object; `typ` is the JS `action.type` string
(`none` models an absent field). -/
structure JsAction where
  typ : Option String := none
  domainId : Option String := none
  focus : Option String := none
  text : Option String := none
deriving DecidableEq

/-- An action object carrying only a `type` tag. -/
def act (t : String) : JsAction := ⟨some t, none, none, none⟩

/-- A result card as shaped by `formatScheme` / `entryPointsCards`;
`contacts` exists only on entry-point cards (`none` elsewhere). -/
structure Card where
  id : String
  title : String
  summary : String
  eligibility : List String
  steps : List String
  links : List String
  contacts : Option String := none
  focus : String
deriving DecidableEq

structure QuickReply where
  id : String
  label : String
  sendText : String
  action : JsAction
deriving DecidableEq

structure AssistantMessage where
  role : String
  text : String
  cards : List Card
  quickReplies : List QuickReply
deriving DecidableEq

/-- `formatScheme(s, lang, focus)`. -/
def formatScheme (s : Scheme) (lang : String) (focus : String) : Card :=
  { id := s.id
    title := langPick lang s.name_en s.name_zh
    summary := langPick lang s.summary_en s.summary_zh
    eligibility := if lang = "zh" then s.eligibility_zh else s.eligibility_en
    steps := if lang = "zh" then s.how_to_apply_zh else s.how_to_apply_en
    links := s.official_links.take 3
    contacts := none
    focus := focus }

/-- `entryPointsCards(lang)`. -/
def entryPointsCards (kb : KBase) (lang : String) : List Card :=
  kb.entry_points.map fun ep =>
    { id := ep.id
      title := langPick lang ep.name_en ep.name_zh
      summary := ""
      eligibility := []
      steps := []
      links := ep.links
      contacts := ep.contacts
      focus := "entry" }

/-- An input item of `makeQuickReplies`.  Every call site passes a non-empty
`id` and no `sendText`, so the `it.id || idx` / `it.sendText || it.label`
defaults collapse to `id` and `label`. -/
structure QRItem where
  id : String
  label : String
  action : JsAction

def makeQuickReplies (items : List QRItem) : List QuickReply :=
  items.map fun it => ⟨it.id, it.label, it.label, it.action⟩

def baseNavItems (lang : String) : List QRItem := [
  ⟨"back_topics", if lang = "zh" then "返回主题" else "Back to topics", act "BACK_TOPICS"⟩,
  ⟨"restart", if lang = "zh" then "重新开始" else "Restart", act "RESTART"⟩]

def baseNavQuickReplies (lang : String) : List QuickReply :=
  makeQuickReplies (baseNavItems lang)

def endItem (lang : String) : QRItem :=
  ⟨"end", if lang = "zh" then "结束" else "End", act "END"⟩

/-- Topic chips: one `SET_DOMAIN` per domain, then `URGENT`, then `END`. -/
def topicQuickReplies (lang : String) : List QuickReply :=
  makeQuickReplies
    ((DOMAIN.map fun d =>
      (⟨"topic_" ++ d.id, langPick lang d.en d.zh,
        ⟨some "SET_DOMAIN", some d.id, none, none⟩⟩ : QRItem))
    ++ [⟨"urgent", if lang = "zh" then "我现在很紧急" else "This is urgent", act "URGENT"⟩,
        endItem lang])

def focusQuickReplies (lang : String) : List QuickReply :=
  makeQuickReplies
    ([⟨"overview", if lang = "zh" then "先看概览" else "Overview",
        ⟨some "SET_FOCUS", none, some "overview", none⟩⟩,
      ⟨"eligibility", if lang = "zh" then "我想看资格" else "Eligibility",
        ⟨some "SET_FOCUS", none, some "eligibility", none⟩⟩,
      ⟨"steps", if lang = "zh" then "我想看申请步骤" else "How to apply",
        ⟨some "SET_FOCUS", none, some "steps", none⟩⟩]
    ++ baseNavItems lang ++ [endItem lang])

/-- `empathyStart(domainId, lang)`; a `null` domain id falls to the default. -/
def empathyStart (domainId : Option String) (lang : String) : String :=
  let zh := lang = "zh"
  if domainId = some "financial" then
    if zh then "明白，经济压力真的会让人喘不过气。我们先找最直接可行的官方方案。"
    else "I hear you — money stress can be heavy. Let’s start with the most workable official options."
  else if domainId = some "housing" then
    if zh then "听起来你在处理住宿压力，这种情况很不容易。我们先确保你有安全可行的下一步。"
    else "That sounds tough. Let’s make sure you have a safe, practical next step first."
  else if domainId = some "healthcare" then
    if zh then "我明白，身体不舒服或医药费压力会很焦虑。我们先看最直接的补贴/减免入口。"
    else "I’m sorry you’re dealing with this. Let’s look at the most direct subsidy/relief routes."
  else if domainId = some "mental" then
    if zh then "我听到了你的压力。你不需要一个人扛着，我们一步一步来。"
    else "I hear you. You don’t have to handle this alone — we’ll take it one step at a time."
  else if domainId = some "seniors" then
    if zh then "明白，我们先把适合长者/照护者的官方入口整理出来。"
    else "Got it. Let’s narrow down the best official support for seniors/caregivers."
  else if domainId = some "disability" then
    if zh then "明白，我们先看最匹配的残障支持与申请路径。"
    else "Got it. Let’s look at the most relevant disability support and application route."
  else if domainId = some "legal" then
    if zh then "明白，法律问题往往很耗心力。我们先从官方援助入口开始。"
    else "Got it — legal issues can be stressful. Let’s start from official aid entry points."
  else
    if zh then "明白。我们先把方向收敛一下。"
    else "Got it. Let’s narrow this down."

/-- `askOneClarifier(domainId, lang)`. -/
def askOneClarifier (domainId : Option String) (lang : String) : String :=
  let zh := lang = "zh"
  if domainId = some "healthcare" then
    if zh then "你更接近哪种情况？A 诊所/门诊补贴（例如 CHAS）｜B 住院/医院账单需要减免（例如 MediFund/医疗社工）"
    else "Which is closer? A) clinic/outpatient subsidies (e.g., CHAS) or B) help with a hospital bill (e.g., MediFund/Medical Social Worker)?"
  else if domainId = some "housing" then
    if zh then "这是“今天/今晚没地方住”的紧急情况吗？（是/否）"
    else "Is this urgent — no place to stay today/tonight? (yes/no)"
  else if domainId = some "financial" then
    if zh then "你现在最急的是：A 日常生活费/食物｜B 账单欠费｜C 短期现金周转？"
    else "What’s most urgent: A) daily expenses/food, B) overdue bills, or C) short-term cash help?"
  else if domainId = some "mental" then
    if zh then "你希望我优先给：A 先有人倾听/匿名支持｜B 专业转介与下一步？"
    else "Do you prefer A) someone to talk to anonymously, or B) professional referral/next steps?"
  else
    if zh then "你想先看：A 资格条件（我是否符合）｜B 申请步骤（怎么做/去哪办）？"
    else "Would you like A) eligibility criteria, or B) step-by-step how/where to apply?"

/-- `domainPresets(domainId, lang)`: domain-specific quick queries. -/
def domainPresets (domainId : Option String) (lang : String) : List QuickReply :=
  let zh := lang = "zh"
  if domainId = some "financial" then
    makeQuickReplies
      ([⟨"daily", if zh then "日常生活费/食物" else "Daily expenses / food",
          ⟨some "ADD_QUERY", none, none, some (if zh then "生活费 食物" else "daily expenses food")⟩⟩,
        ⟨"bills", if zh then "账单/水电费" else "Bills / utilities",
          ⟨some "ADD_QUERY", none, none, some (if zh then "账单 水电费" else "bills utilities")⟩⟩,
        ⟨"rent", if zh then "租金压力" else "Rent problems",
          ⟨some "ADD_QUERY", none, none, some (if zh then "租金" else "rent")⟩⟩]
      ++ baseNavItems lang ++ [endItem lang])
  else if domainId = some "housing" then
    makeQuickReplies
      ([⟨"no_place", if zh then "今天没地方住" else "No place to stay today", act "URGENT"⟩,
        ⟨"rental", if zh then "公共租赁/租房" else "Public rental / renting",
          ⟨some "ADD_QUERY", none, none, some (if zh then "公共租赁 租房" else "public rental")⟩⟩,
        ⟨"temp", if zh then "过渡/临时安置" else "Temporary shelter",
          ⟨some "ADD_QUERY", none, none, some (if zh then "临时安置 shelter" else "temporary shelter")⟩⟩]
      ++ baseNavItems lang ++ [endItem lang])
  else if domainId = some "healthcare" then
    makeQuickReplies
      ([⟨"clinic", if zh then "诊所/门诊补贴" else "Clinic/outpatient subsidy",
          ⟨some "ADD_QUERY", none, none, some (if zh then "CHAS 门诊 诊所" else "CHAS clinic outpatient")⟩⟩,
        ⟨"hospital", if zh then "医院账单付不起" else "Can\x27t afford hospital bill",
          ⟨some "ADD_QUERY", none, none, some (if zh then "医院账单 付不起 MediFund" else "hospital bill MediFund")⟩⟩,
        ⟨"insurance", if zh then "保险/保费" else "Insurance / premiums",
          ⟨some "ADD_QUERY", none, none, some (if zh then "MediShield Life 保费" else "MediShield Life premiums")⟩⟩]
      ++ baseNavItems lang ++ [endItem lang])
  else if domainId = some "seniors" then
    makeQuickReplies
      ([⟨"cash", if zh then "现金补助" else "Cash support",
          ⟨some "ADD_QUERY", none, none, some (if zh then "现金补助 Silver Support" else "cash support Silver Support")⟩⟩,
        ⟨"care", if zh then "照护服务" else "Care services",
          ⟨some "ADD_QUERY", none, none, some (if zh then "照护服务 AIC" else "care services AIC")⟩⟩,
        ⟨"caregiver", if zh then "照护者资源" else "Caregiver support",
          ⟨some "ADD_QUERY", none, none, some (if zh then "照护者 支持" else "caregiver support")⟩⟩]
      ++ baseNavItems lang ++ [endItem lang])
  else if domainId = some "disability" then
    makeQuickReplies
      ([⟨"assistive", if zh then "辅助器材补贴" else "Assistive tech subsidy",
          ⟨some "ADD_QUERY", none, none, some (if zh then "辅助器材 ATF" else "assistive technology fund ATF")⟩⟩,
        ⟨"jobs", if zh then "就业支持" else "Employment support",
          ⟨some "ADD_QUERY", none, none, some (if zh then "残障 就业" else "disability employment")⟩⟩]
      ++ baseNavItems lang ++ [endItem lang])
  else if domainId = some "legal" then
    makeQuickReplies
      ([⟨"legal_aid", if zh then "法律援助申请" else "Apply for legal aid",
          ⟨some "ADD_QUERY", none, none, some (if zh then "法律援助 LAB" else "legal aid LAB")⟩⟩,
        ⟨"family", if zh then "家庭/离婚" else "Family/divorce",
          ⟨some "ADD_QUERY", none, none, some (if zh then "离婚 家庭" else "divorce family law")⟩⟩]
      ++ baseNavItems lang ++ [endItem lang])
  else if domainId = some "mental" then
    makeQuickReplies
      ([⟨"talk", if zh then "想找人聊聊" else "I need someone to talk to",
          ⟨some "ADD_QUERY", none, none, some (if zh then "心理支持 倾诉" else "mental health support talk")⟩⟩,
        ⟨"urgent_mental", if zh then "我很危险/想伤害自己" else "I\x27m in danger / self-harm thoughts",
          act "SENSITIVE"⟩]
      ++ baseNavItems lang ++ [endItem lang])
  else
    makeQuickReplies (baseNavItems lang ++ [endItem lang])

/-- `noMoreResultsMessage(lang, domainId)` (the `domainId` argument is unused
in the source). -/
def noMoreResultsMessage (lang : String) (_domainId : Option String) :
    AssistantMessage :=
  let zh := lang = "zh"
  { role := "assistant"
    text := if zh then
        "我这边已经没有更多匹配结果了。\n\n如果你希望进一步确认适用方案或需要更个性化的协助，可以选择“转人工”。"
      else
        "I don’t have more matched results to show.\n\nIf you need more tailored help or want to confirm what applies to you, you can choose “Talk to a human”."
    cards := []
    quickReplies := makeQuickReplies
      ([⟨"escalate", if zh then "转人工" else "Talk to a human", act "ESCALATE"⟩]
      ++ baseNavItems lang ++ [endItem lang]) }

def endConversationMessage (lang : String) : AssistantMessage :=
  let zh := lang = "zh"
  { role := "assistant"
    text := if zh then
        "希望我提供的信息能帮助到您。\n\n如果之后还需要我协助，你随时可以点击“重新开始”或“返回主题”。"
      else
        "I hope the information I shared was helpful.\n\nIf you need help later, you can always tap “Restart” or “Back to topics”."
    cards := []
    quickReplies := makeQuickReplies [
      ⟨"back_topics", if zh then "返回主题" else "Back to topics", act "BACK_TOPICS"⟩,
      ⟨"restart", if zh then "重新开始" else "Restart", act "RESTART"⟩] }

/-- `buildResultsMessage({lang, domainId, focus, query, offset, pageSize})`:
renders the current page of the full ranked match list. -/
def buildResultsMessage (kb : KBase) (lang : String) (domainId : Option String)
    (focus query : String) (offset pageSize : Int) : AssistantMessage :=
  let zh := lang = "zh"
  let domain := domainById domainId
  let r := retrieveAllSchemes kb query domainId
  let matched := r.matched
  let total : Int := matched.length
  if total = 0 then
    { role := "assistant"
      text := if zh then
          "我暂时没在知识库里匹配到非常具体的项目。别担心——你可以先从这些官方入口开始（能转介/查询），或者换一种说法（例如加上‘住院/诊所/账单’这类关键词）。"
        else
          "I couldn’t match a specific scheme in the KB yet. No worries — start from these official entry points (they can refer you), or rephrase with a bit more detail (e.g., ‘clinic/hospital/bills’)."
      cards := entryPointsCards kb lang
      quickReplies := makeQuickReplies
        ([⟨"rephrase", if zh then "我补充一句细节" else "I’ll add one detail", act "NOOP"⟩]
        ++ baseNavItems lang ++ [endItem lang]) }
  else if total ≤ offset then
    noMoreResultsMessage lang domainId
  else
    let page := (jsSlice matched offset (offset + pageSize)).map (·.s)
    let hasMore := offset + pageSize < total
    let dName := jsStr (langPickOpt lang (domain.map (·.en)) (domain.map (·.zh)))
    let intro := if r.lowConfidence then
        (if zh then
          "我先给你几个“可能相关”的官方项目（基于：" ++ dName ++ "）。如果方向不对，点“返回主题”就能重来。"
        else
          "Here are a few *possibly relevant* official schemes (based on: " ++ dName ++ "). If this isn’t right, tap “Back to topics”.")
      else
        (if zh then
          "我找到最相关的官方项目（" ++ dName ++ "）。你想先看“资格”还是“申请步骤”？"
        else
          "I found the most relevant official schemes (" ++ dName ++ "). Do you want “Eligibility” or “How to apply” first?")
    let focusChips : List QRItem :=
      [⟨"overview", if zh then "概览" else "Overview",
          ⟨some "SET_FOCUS", none, some "overview", none⟩⟩,
        ⟨"eligibility", if zh then "资格" else "Eligibility",
          ⟨some "SET_FOCUS", none, some "eligibility", none⟩⟩,
        ⟨"steps", if zh then "步骤" else "Steps",
          ⟨some "SET_FOCUS", none, some "steps", none⟩⟩]
      ++ (if hasMore then
            [⟨"more", if zh then "更多结果" else "More results", act "MORE_RESULTS"⟩]
          else [])
    { role := "assistant"
      text := intro
      cards := page.map fun s => formatScheme s lang focus
      quickReplies := makeQuickReplies
        (focusChips ++ baseNavItems lang ++ [endItem lang]) }

/-- `urgentMessage(lang)` (its quick replies re-run `makeQuickReplies` over
`topicQuickReplies(lang)`, which is idempotent). -/
def urgentMessage (kb : KBase) (lang : String) : AssistantMessage :=
  let zh := lang = "zh"
  { role := "assistant"
    text := if zh then
        "明白，这听起来比较紧急。为了让你马上有可走的下一步，我先给你最直接的官方入口（可转介/联系）。如果你愿意，也可以再说一句：你现在最急的是住房/钱/医疗哪一块？我会把步骤整理成 1-2-3。"
      else
        "Got it — this sounds urgent. To help immediately, here are official entry points you can contact first. If you’d like, tell me in one sentence whether this is mainly housing/money/healthcare, and I’ll turn it into a clear 1-2-3 plan."
    cards := entryPointsCards kb lang
    quickReplies := topicQuickReplies lang }

def sensitiveMessage (kb : KBase) (lang : String) : AssistantMessage :=
  let zh := lang = "zh"
  { role := "assistant"
    text := if zh then
        "谢谢你告诉我。如果你现在有自伤/他伤风险或处在危险中，请立刻联系紧急服务（999）或使用 national mindline 1771（24/7）。如果你愿意，你也可以回我一句：你更想‘有人倾听’还是‘获得转介与下一步’，我会继续帮你。"
      else
        "Thanks for telling me. If you’re in immediate danger or at risk of self-harm, contact emergency services (999) or national mindline 1771 (24/7). If you want, tell me whether you prefer ‘someone to talk to’ or ‘referral/next steps’, and I’ll continue."
    cards := entryPointsCards kb lang
    quickReplies := topicQuickReplies lang }

/-- The per-conversation dialog state; `offset`/`pageSize` are JS numbers,
modelled as `Int`. -/
structure DialogState where
  lang : String
  step : String
  domainId : Option String
  focus : String
  lastQuery : String
  offset : Int
  pageSize : Int
  ended : Bool
deriving DecidableEq

/-- `initDialogState(lang)`. -/
def initDialogState (lang : String) : DialogState :=
  { lang := lang
    step := "choose_domain"
    domainId := none
    focus := "overview"
    lastQuery := ""
    offset := 0
    pageSize := DEFAULT_PAGE_SIZE
    ended := false }

/-- `getInitialAssistantMessage(lang)`. -/
def getInitialAssistantMessage (lang : String) : AssistantMessage :=
  { role := "assistant"
    text := if lang = "zh" then
        "你好！你可以直接用一句话描述情况（例如：‘医药费太贵’ / ‘今晚没地方住’ / ‘我很焦虑’），我会从官方渠道帮你找到下一步。你现在最需要哪一类帮助？"
      else
        "Hi! You can describe your situation in one sentence (e.g., ‘medical bills are too expensive’ / ‘no place to stay tonight’ / ‘I feel overwhelmed’). I’ll help you find the next steps from official sources. What kind of help do you need?"
    cards := []
    quickReplies := topicQuickReplies lang }

/-- The result of one engine turn: the next state and the outbound message
(`none` for the inert branches). -/
structure StepRes where
  state : DialogState
  message : Option AssistantMessage
deriving DecidableEq

deriving instance DecidableEq for Except

/-- `handleUserText(state, userText)`.  Order of checks, as in the source:
ended-revival, empty input, sensitive triggers, urgent triggers, then the
step machine with hard-then-soft domain detection. -/
def handleUserText (kb : KBase) (state : DialogState) (userText : String) :
    Except String StepRes :=
  let lang := state.lang
  let raw := jsTrim userText
  let zh := lang = "zh"
  if state.ended then
    .ok ⟨initDialogState lang, some
      { role := "assistant"
        text := if zh then "好的，我们重新开始。你现在最需要哪一类帮助？"
          else "Sure — let’s restart. What kind of help do you need?"
        cards := []
        quickReplies := topicQuickReplies lang }⟩
  else if raw = "" then
    .ok ⟨state, some
      { role := "assistant"
        text := if zh then "你可以直接选择一个主题，或者用一句话描述你的情况（越像日常说法越好）。"
          else "You can pick a topic, or describe your situation in one natural sentence."
        cards := []
        quickReplies := if state.step = "choose_domain" then topicQuickReplies lang
          else domainPresets state.domainId lang }⟩
  else if containsAny raw SENSITIVE_TRIGGERS then
    .ok ⟨{ state with
           step := "choose_domain", domainId := none,
           lastQuery := "", offset := 0 }, some (sensitiveMessage kb lang)⟩
  else if containsAny raw URGENT_TRIGGERS then
    .ok ⟨{ state with
           step := "choose_domain", domainId := none,
           lastQuery := "", offset := 0 }, some (urgentMessage kb lang)⟩
  else
    let detectedHard := detectDomainIdFromText raw
    let detectedDomain := match detectedHard with
      | some d => some d
      | none => softGuessDomainId raw
    if state.step = "choose_domain" then
      match detectedDomain with
      | some did =>
        match domainById (some did) with
        | some d =>
          let next := { state with
                        step := "choose_focus", domainId := some did,
                        offset := 0 }
          .ok ⟨next, some
            { role := "assistant"
              text := if zh then
                  empathyStart (some did) lang ++ "\n\n好的，我们先从「"
                    ++ langPick lang d.en d.zh ++ "」开始。你想先看哪一类信息？"
                else
                  empathyStart (some did) lang ++ "\n\nOK — let’s start with “"
                    ++ langPick lang d.en d.zh ++ "”. What do you want first?"
              cards := []
              quickReplies := focusQuickReplies lang }⟩
        | none => .error "TypeError"
      | none =>
        .ok ⟨state, some
          { role := "assistant"
            text := if zh then
                "我还没完全确定你属于哪一类，但我想先接住你。\n\n你更接近下面哪一个？（也可以直接再说一句细节，例如‘住院账单’/‘租金欠费’/‘很焦虑’）"
              else
                "I’m not fully sure which category this falls under yet, but I want to help.\n\nWhich is closest? (Or add one detail like ‘hospital bill’ / ‘rent arrears’ / ‘feeling overwhelmed’.)"
            cards := []
            quickReplies := topicQuickReplies lang }⟩
    else if state.step = "choose_focus" then
      let next := { state with
                    step := "refine_and_show", lastQuery := raw,
                    offset := 0 }
      .ok ⟨next, some (buildResultsMessage kb lang next.domainId next.focus raw
        next.offset next.pageSize)⟩
    else
      let next := { state with
                    step := "refine_and_show", lastQuery := raw,
                    offset := 0 }
      .ok ⟨next, some (buildResultsMessage kb lang next.domainId next.focus
        next.lastQuery next.offset next.pageSize)⟩

/-- `x || y` on JS numbers (`0` is falsy). -/
def jsOrInt (a b : Int) : Int := if a = 0 then b else a

/-- `action.focus || "overview"` / `action.text || ""` on optional strings. -/
def jsOrStr (o : Option String) (dflt : String) : String :=
  match o with
  | some s => if s = "" then dflt else s
  | none => dflt

/-- `handleAction(state, action)`.  `none` models a missing/null action;
an absent or empty `type` and every unrecognized tag are inert. -/
def handleAction (kb : KBase) (state : DialogState) (action? : Option JsAction) :
    Except String StepRes :=
  let lang := state.lang
  let zh := lang = "zh"
  match action? with
  | none => .ok ⟨state, none⟩
  | some action =>
    match action.typ with
    | none => .ok ⟨state, none⟩
    | some t =>
      if t = "" then .ok ⟨state, none⟩
      else if t = "RESTART" then
        .ok ⟨initDialogState lang, some (getInitialAssistantMessage lang)⟩
      else if t = "END" then
        .ok ⟨{ state with ended := true }, some (endConversationMessage lang)⟩
      else if t = "ESCALATE" then
        .ok ⟨state, some
          { role := "assistant"
            text := if zh then "好的，我帮你转接人工支持。"
              else "Okay — I’ll connect you to human support."
            cards := []
            quickReplies := makeQuickReplies (baseNavItems lang ++ [endItem lang]) }⟩
      else if t = "BACK_TOPICS" then
        .ok ⟨{ state with
               step := "choose_domain", domainId := none,
               lastQuery := "", offset := 0, ended := false }, some
          { role := "assistant"
            text := if zh then "好的，我们回到一开始。你可以点主题，也可以直接说一句你遇到的情况。"
              else "Sure — back to the start. You can tap a topic, or just tell me what’s going on in one sentence."
            cards := []
            quickReplies := topicQuickReplies lang }⟩
      else if t = "URGENT" then
        .ok ⟨{ state with
               step := "choose_domain", domainId := none,
               lastQuery := "", offset := 0, ended := false },
          some (urgentMessage kb lang)⟩
      else if t = "SENSITIVE" then
        .ok ⟨{ state with
               step := "choose_domain", domainId := none,
               lastQuery := "", offset := 0, ended := false },
          some (sensitiveMessage kb lang)⟩
      else if t = "SET_DOMAIN" then
        match domainById action.domainId with
        | some d =>
          let s := { state with
                     step := "choose_focus", domainId := action.domainId,
                     lastQuery := "", offset := 0, ended := false }
          .ok ⟨s, some
            { role := "assistant"
              text := if zh then
                  empathyStart action.domainId lang ++ "\n\n好的，我们从「"
                    ++ langPick lang d.en d.zh ++ "」开始。你想先看哪一类信息？"
                else
                  empathyStart action.domainId lang ++ "\n\nOK — starting with “"
                    ++ langPick lang d.en d.zh ++ "”. What do you want first?"
              cards := []
              quickReplies := focusQuickReplies lang }⟩
        | none => .error "TypeError"
      else if t = "SET_FOCUS" then
        let s := { state with focus := jsOrStr action.focus "overview", offset := 0 }
        if s.step = "refine_and_show" ∧ s.lastQuery ≠ "" then
          .ok ⟨s, some (buildResultsMessage kb lang s.domainId s.focus s.lastQuery
            s.offset s.pageSize)⟩
        else
          .ok ⟨{ s with step := "refine_and_show" }, some
            { role := "assistant"
              text := if zh then
                  "明白。" ++ askOneClarifier s.domainId lang
                    ++ "\n\n你也可以直接用一句话描述，我会马上给你最相关的官方项目。"
                else
                  "Got it. " ++ askOneClarifier s.domainId lang
                    ++ "\n\nOr describe it in one sentence — I’ll show the most relevant official schemes right away."
              cards := []
              quickReplies := domainPresets s.domainId lang }⟩
      else if t = "ADD_QUERY" then
        let added := jsTrim (jsOrStr action.text "")
        let q := if state.lastQuery ≠ "" then
            jsTrim (state.lastQuery ++ " " ++ added)
          else added
        let s := { state with step := "refine_and_show", lastQuery := q, offset := 0 }
        .ok ⟨s, some (buildResultsMessage kb lang s.domainId s.focus s.lastQuery
          s.offset s.pageSize)⟩
      else if t = "MORE_RESULTS" then
        if state.lastQuery = "" then
          .ok ⟨state, some
            { role := "assistant"
              text := if zh then
                  "你先用一句话描述你的需求（例如‘住院账单’/‘租金欠费’/‘诊所补贴’），我才能给你更相关的更多结果。"
                else
                  "Describe your need in one sentence first (e.g., ‘hospital bill’ / ‘rent arrears’ / ‘clinic subsidy’), and I’ll fetch more relevant results."
              cards := []
              quickReplies := domainPresets state.domainId lang }⟩
        else
          let nextOffset := jsOrInt state.offset 0 + jsOrInt state.pageSize DEFAULT_PAGE_SIZE
          let s := { state with offset := nextOffset }
          .ok ⟨s, some (buildResultsMessage kb lang s.domainId s.focus s.lastQuery
            s.offset s.pageSize)⟩
      else
        .ok ⟨state, none⟩

/-- The action tags the `switch` of `handleAction` recognizes (`NOOP` is
recognized and inert, like the default branch). -/
def RECOGNIZED_ACTIONS : List String :=
  ["RESTART", "END", "ESCALATE", "BACK_TOPICS", "URGENT", "SENSITIVE",
   "SET_DOMAIN", "SET_FOCUS", "ADD_QUERY", "MORE_RESULTS", "NOOP"]

/-- States reachable from `initDialogState` by any interleaving of free-text
turns and button actions. -/
inductive Reachable (kb : KBase) : DialogState → Prop where
  | init (lang : String) : Reachable kb (initDialogState lang)
  | text (s : DialogState) (t : String) (r : StepRes) :
      Reachable kb s → handleUserText kb s t = .ok r → Reachable kb r.state
  | action (s : DialogState) (a : Option JsAction) (r : StepRes) :
      Reachable kb s → handleAction kb s a = .ok r → Reachable kb r.state

/-- An empty knowledge base (concrete instance for closed statements). -/
def kbEmpty : KBase := ⟨[], []⟩

/-- A one-line scheme whose name contains the token `aid`. -/
def schemeAid : Scheme :=
  ⟨"s1", "financial_assistance", "aid scheme", "", "", "", [], [], [], [], [], [], []⟩

/-- A second scheme also matching `aid`, for tie/stability instances. -/
def schemeAid2 : Scheme :=
  ⟨"s2", "financial_assistance", "aid fund", "", "", "", [], [], [], [], [], [], []⟩

def kbOne : KBase := ⟨[schemeAid], []⟩

def kbTwo : KBase := ⟨[schemeAid, schemeAid2], []⟩

/-- A refine-step state with a query that matches `kbOne`/`kbTwo`. -/
def stAid : DialogState := ⟨"en", "refine_and_show", none, "overview", "aid", 0, 3, false⟩

/-- A refine-step state whose query matches nothing. -/
def stNoHit : DialogState := ⟨"en", "refine_and_show", none, "overview", "zz", 0, 3, false⟩

/-- An already-ended state. -/
def stEnded : DialogState := ⟨"en", "choose_domain", none, "overview", "", 0, 3, true⟩

/-- The head score of a sorted score list (`scored[0]?.score ?? 0`). -/
def headScore : List ScoredS → Nat
  | [] => 0
  | x :: _ => x.score

/-! ## Generic lemmas about the embedded primitives -/

theorem foldl_add_count (p : String → Bool) (k : Nat) :
    ∀ (l : List String) (a : Nat),
      l.foldl (fun sc tok => if p tok then sc + k else sc) a = a + k * l.countP p := by
  intro l
  induction l with
  | nil => intro a; simp
  | cons x xs ih =>
    intro a
    by_cases hp : p x <;> simp [List.countP_cons, hp, ih] <;> ring

theorem jsOrInt_zero (a : Int) : jsOrInt a 0 = a := by
  unfold jsOrInt; split <;> omega

theorem insertScored_perm (x : ScoredS) (l : List ScoredS) :
    List.Perm (insertScored x l) (x :: l) := by
  induction l with
  | nil => rfl
  | cons y ys ih =>
    unfold insertScored
    split
    · rfl
    · exact (ih.cons y).trans (List.Perm.swap x y ys)

theorem sortDesc_perm (l : List ScoredS) : List.Perm (sortDesc l) l := by
  induction l with
  | nil => rfl
  | cons x xs ih => exact (insertScored_perm x (sortDesc xs)).trans (ih.cons x)

theorem insertScored_sorted (x : ScoredS) (l : List ScoredS)
    (h : l.Pairwise (fun a b => b.score ≤ a.score)) :
    (insertScored x l).Pairwise (fun a b => b.score ≤ a.score) := by
  induction l with
  | nil => simp [insertScored]
  | cons y ys ih =>
    rw [List.pairwise_cons] at h
    obtain ⟨hy, hys⟩ := h
    unfold insertScored
    split
    · rename_i hle
      refine List.Pairwise.cons ?_ (List.Pairwise.cons hy hys)
      intro b hb
      rcases List.mem_cons.mp hb with hb | hb
      · subst hb; exact hle
      · exact le_trans (hy b hb) hle
    · rename_i hgt
      push_neg at hgt
      refine List.Pairwise.cons ?_ (ih hys)
      intro b hb
      rcases List.mem_cons.mp ((insertScored_perm x ys).mem_iff.mp hb) with rfl | hb2
      · omega
      · exact hy b hb2

theorem sortDesc_sorted (l : List ScoredS) :
    (sortDesc l).Pairwise (fun a b => b.score ≤ a.score) := by
  induction l with
  | nil => simp [sortDesc]
  | cons x xs ih => exact insertScored_sorted x (sortDesc xs) ih

theorem insertScored_filter_ne (x : ScoredS) (l : List ScoredS) (k : Nat)
    (hx : x.score ≠ k) :
    (insertScored x l).filter (fun y => y.score == k)
      = l.filter (fun y => y.score == k) := by
  induction l with
  | nil => simp [insertScored, hx]
  | cons y ys ih =>
    unfold insertScored
    split
    · simp [hx]
    · simp only [List.filter_cons]
      rw [ih]

theorem insertScored_filter_eq (x : ScoredS) (l : List ScoredS) (k : Nat)
    (hx : x.score = k) (hs : l.Pairwise (fun a b => b.score ≤ a.score)) :
    (insertScored x l).filter (fun y => y.score == k)
      = x :: l.filter (fun y => y.score == k) := by
  induction l with
  | nil => simp [insertScored, hx]
  | cons y ys ih =>
    rw [List.pairwise_cons] at hs
    obtain ⟨hy, hys⟩ := hs
    unfold insertScored
    split
    · simp [hx]
    · rename_i hgt
      push_neg at hgt
      have hyk : (y.score == k) = false := by
        simp only [beq_eq_false_iff_ne]; omega
      simp only [List.filter_cons, hyk]
      exact ih hys

theorem sortDesc_stable (l : List ScoredS) (k : Nat) :
    (sortDesc l).filter (fun y => y.score == k)
      = l.filter (fun y => y.score == k) := by
  induction l with
  | nil => rfl
  | cons x xs ih =>
    show (insertScored x (sortDesc xs)).filter (fun y => y.score == k)
      = (x :: xs).filter (fun y => y.score == k)
    by_cases hx : x.score = k
    · rw [insertScored_filter_eq x (sortDesc xs) k hx (sortDesc_sorted xs), ih]
      simp [hx]
    · rw [insertScored_filter_ne x (sortDesc xs) k hx, ih]
      simp [hx]

theorem headScore_insert (x : ScoredS) (l : List ScoredS) :
    headScore (insertScored x l) = max x.score (headScore l) := by
  cases l with
  | nil => simp [insertScored, headScore]
  | cons y ys =>
    unfold insertScored
    split <;> simp [headScore] <;> omega

theorem headScore_sortDesc (l : List ScoredS) :
    headScore (sortDesc l) = l.foldr (fun a m => max a.score m) 0 := by
  induction l with
  | nil => rfl
  | cons x xs ih =>
    show headScore (insertScored x (sortDesc xs)) = _
    rw [headScore_insert, ih]
    simp

/-- C3: `retrieveAllSchemes` returns a descending, stably-ordered, positive-
score selection of the scored knowledge base, capped at `MAX_MATCHES_CAP`,
and `lowConfidence` holds exactly when the best score over all schemes is
below 5. -/
theorem retrieveAll_spec (kb : KBase) (q : String) (dId : Option String) :
    (retrieveAllSchemes kb q dId).matched.Pairwise (fun a b => b.score ≤ a.score)
    ∧ (∀ x ∈ (retrieveAllSchemes kb q dId).matched,
        0 < x.score ∧ x ∈ scoredList kb q dId)
    ∧ (retrieveAllSchemes kb q dId).matched.length ≤ MAX_MATCHES_CAP
    ∧ (((scoredList kb q dId).filter fun x => 0 < x.score).length ≤ MAX_MATCHES_CAP →
        ∀ x, x ∈ (retrieveAllSchemes kb q dId).matched ↔
          x ∈ scoredList kb q dId ∧ 0 < x.score)
    ∧ (∀ k, 0 < k →
        (retrieveAllSchemes kb q dId).matched.filter (fun y => y.score == k)
          <+: (scoredList kb q dId).filter (fun y => y.score == k))
    ∧ ((retrieveAllSchemes kb q dId).lowConfidence = true ↔
        (scoredList kb q dId).foldr (fun a m => max a.score m) 0 < 5) := by
  have hperm := sortDesc_perm (scoredList kb q dId)
  have hmatched : (retrieveAllSchemes kb q dId).matched
      = ((sortDesc (scoredList kb q dId)).filter fun x => 0 < x.score).take
          MAX_MATCHES_CAP := rfl
  have hsubl : (retrieveAllSchemes kb q dId).matched.Sublist
      (sortDesc (scoredList kb q dId)) := by
    rw [hmatched]
    exact (List.take_sublist _ _).trans (List.filter_sublist _)
  refine ⟨?_, ?_, ?_, ?_, ?_, ?_⟩
  · exact (sortDesc_sorted (scoredList kb q dId)).sublist hsubl
  · intro x hx
    rw [hmatched] at hx
    have hxf := (List.take_sublist _ _).mem hx
    rw [List.mem_filter] at hxf
    exact ⟨by simpa using hxf.2, hperm.mem_iff.mp hxf.1⟩
  · rw [hmatched]; exact List.length_take_le _ _
  · intro hlen x
    have hfl : ((sortDesc (scoredList kb q dId)).filter fun x => 0 < x.score).length
        = ((scoredList kb q dId).filter fun x => 0 < x.score).length :=
      (hperm.filter _).length_eq
    rw [hmatched, List.take_of_length_le (by omega), List.mem_filter]
    constructor
    · rintro ⟨h1, h2⟩
      exact ⟨hperm.mem_iff.mp h1, by simpa using h2⟩
    · rintro ⟨h1, h2⟩
      exact ⟨hperm.mem_iff.mpr h1, by simpa using h2⟩
  · intro k hk
    rw [hmatched]
    have h1 : (((sortDesc (scoredList kb q dId)).filter fun x => 0 < x.score).take
          MAX_MATCHES_CAP).filter (fun y => y.score == k)
        <+: ((sortDesc (scoredList kb q dId)).filter fun x => 0 < x.score).filter
          (fun y => y.score == k) :=
      ( List.take_prefix _ _).filter _
    have h2 : ((sortDesc (scoredList kb q dId)).filter fun x => 0 < x.score).filter
          (fun y => y.score == k)
        = (scoredList kb q dId).filter (fun y => y.score == k) := by
      rw [List.filter_filter]
      rw [show ((sortDesc (scoredList kb q dId)).filter
          fun y => (y.score == k) && decide (0 < y.score))
        = (sortDesc (scoredList kb q dId)).filter (fun y => y.score == k) from
        List.filter_congr fun a _ => by
          by_cases ha : a.score = k
          · simp [ha]; omega
          · simp [ha]]
      exact sortDesc_stable _ k
    rw [h2] at h1
    exact h1
  · have : (retrieveAllSchemes kb q dId).lowConfidence
        = decide (headScore (sortDesc (scoredList kb q dId)) < 5) := rfl
    rw [this, decide_eq_true_eq, headScore_sortDesc]

/-- Witness for `retrieveAll_spec` at a concrete two-scheme knowledge base. -/
theorem retrieveAll_spec_witness :
    (((scoredList kbTwo "aid" none).filter fun x => 0 < x.score).length
        ≤ MAX_MATCHES_CAP)
    ∧ ((⟨schemeAid, 5⟩ : ScoredS) ∈ (retrieveAllSchemes kbTwo "aid" none).matched ↔
        (⟨schemeAid, 5⟩ : ScoredS) ∈ scoredList kbTwo "aid" none
          ∧ 0 < (⟨schemeAid, 5⟩ : ScoredS).score)
    ∧ (0 : Nat) < 5
    ∧ ((retrieveAllSchemes kbTwo "aid" none).matched.filter (fun y => y.score == 5)
        <+: (scoredList kbTwo "aid" none).filter (fun y => y.score == 5)) :=
  ⟨by decide, (retrieveAll_spec kbTwo "aid" none).2.2.2.1 (by decide) _, by decide,
   (retrieveAll_spec kbTwo "aid" none).2.2.2.2.1 5 (by decide)⟩

theorem boostApplies_iff (cb : Option String) (s : Scheme) :
    boostApplies cb s = true ↔ (cb = some s.category ∧ s.category ≠ "") := by
  cases cb with
  | none => simp [boostApplies]
  | some c =>
    simp only [boostApplies, Bool.and_eq_true, decide_eq_true_eq, ne_eq,
      Option.some.injEq]
    constructor
    · rintro ⟨h1, h2⟩
      subst h2
      exact ⟨rfl, by simpa using h1⟩
    · rintro ⟨h1, h2⟩
      subst h1
      exact ⟨by simpa using h2, rfl⟩

/-- C4: `scoreScheme` is 3 per token occurring in the combined match text,
plus 2 per token occurring in the name text, plus 10 when the domain hint is
the scheme's category, plus 2 more when additionally the query has at most
two tokens. -/
theorem scoreScheme_formula (toks : List String) (s : Scheme) (cb : Option String) :
    scoreScheme toks s cb
      = 3 * toks.countP (fun t => strIncludes (schemeTextForMatch s) t)
        + 2 * toks.countP (fun t =>
            strIncludes (strLower (normalizeText (s.name_en ++ " " ++ s.name_zh))) t)
        + (if cb = some s.category ∧ s.category ≠ "" then 10 else 0)
        + (if (cb = some s.category ∧ s.category ≠ "") ∧ toks.length ≤ 2 then 2
           else 0) := by
  unfold scoreScheme
  dsimp only
  rw [foldl_add_count, foldl_add_count]
  by_cases hb : boostApplies cb s
  · have hb' : cb = some s.category ∧ s.category ≠ "" := (boostApplies_iff cb s).mp hb
    rw [hb, if_pos hb']
    by_cases hl : toks.length ≤ 2
    · simp [hl, hb']
      ring
    · simp [hl]
      ring
  · have hb2 : boostApplies cb s = false := by simpa using hb
    have hb' : ¬(cb = some s.category ∧ s.category ≠ "") := fun h =>
      absurd ((boostApplies_iff cb s).mpr h) hb
    rw [hb2]
    simp [hb']

/-- C8: `RESTART` returns exactly the fresh initial state for the prior
state's language together with the welcome message, whatever the prior state
and whatever other payload fields the action carries. -/
theorem restart_round_trip (kb : KBase) (s : DialogState)
    (dId f tx : Option String) :
    handleAction kb s (some ⟨some "RESTART", dId, f, tx⟩)
      = .ok ⟨initDialogState s.lang, some (getInitialAssistantMessage s.lang)⟩ :=
  rfl

/-- C9: a missing action, an action without a `type`, and every action whose
`type` is outside the recognized tags leave the state untouched and emit no
message. -/
theorem unrecognized_action_noop (kb : KBase) (s : DialogState)
    (a? : Option JsAction)
    (h : ∀ a ∈ a?, ∀ t ∈ a.typ, t ∉ RECOGNIZED_ACTIONS) :
    handleAction kb s a? = .ok ⟨s, none⟩ := by
  cases a? with
  | none => rfl
  | some a =>
    cases ha : a.typ with
    | none => simp [handleAction, ha]
    | some t =>
      have ht : t ∉ RECOGNIZED_ACTIONS := by
        refine h a ?_ t ?_
        · rfl
        · rw [ha]; rfl
      simp only [RECOGNIZED_ACTIONS, List.mem_cons, List.not_mem_nil, or_false,
        not_or] at ht
      obtain ⟨h1, h2, h3, h4, h5, h6, h7, h8, h9, h10, h11⟩ := ht
      by_cases he : t = ""
      · simp [handleAction, ha, he]
      · simp [handleAction, ha, he, h1, h2, h3, h4, h5, h6, h7, h8, h9, h10]

/-- Witness for `unrecognized_action_noop`: the unknown tag `FOO` is inert. -/
theorem unrecognized_action_noop_witness :
    handleAction kbEmpty stAid (some (act "FOO")) = .ok ⟨stAid, none⟩ :=
  unrecognized_action_noop kbEmpty stAid (some (act "FOO")) (by
    intro a ha t ht
    simp only [act, Option.mem_def, Option.some.injEq] at ha ht
    subst ha
    simp only [Option.some.injEq] at ht
    subst ht
    decide)

/-- C10: `BACK_TOPICS`, `URGENT`, `SENSITIVE` and `SET_DOMAIN` never return a
state whose `ended` flag is true — each sets `ended := false`, so any of them
revives a session ended via `END`, not only free text or `RESTART`. -/
theorem revival_actions_clear_ended (kb : KBase) (s : DialogState) (a : JsAction)
    (h : a.typ = some "BACK_TOPICS" ∨ a.typ = some "URGENT"
      ∨ a.typ = some "SENSITIVE" ∨ a.typ = some "SET_DOMAIN") :
    (handleAction kb s (some a)).toOption.map (fun r => r.state.ended)
      ≠ some true := by
  rcases h with h | h | h | h
  · simp [handleAction, h, Except.toOption]
  · simp [handleAction, h, Except.toOption]
  · simp [handleAction, h, Except.toOption]
  · cases hd : domainById a.domainId with
    | none => simp [handleAction, h, hd, Except.toOption]
    | some d => simp [handleAction, h, hd, Except.toOption]

/-- Witness for `revival_actions_clear_ended`: `BACK_TOPICS` on an ended
session yields `ended = false`. -/
theorem revival_actions_clear_ended_witness :
    (handleAction kbEmpty stEnded (some (act "BACK_TOPICS"))).toOption.map
      (fun r => r.state.ended) ≠ some true :=
  revival_actions_clear_ended kbEmpty stEnded (act "BACK_TOPICS") (Or.inl rfl)

theorem containsAny_trim_ne_empty (txt : String) (rs : List SynRule)
    (h : containsAny (jsTrim txt) rs = true) : jsTrim txt ≠ "" := by
  intro he
  rw [he] at h
  obtain ⟨r, _, hrt⟩ := List.any_eq_true.mp h
  unfold ruleTest at hrt
  have hempty : replFirst r none ("" : String).data = none := rfl
  rw [hempty] at hrt
  exact absurd hrt (by simp)

/-- C1 (amended to non-ended states): on any state with `ended = false`, a
free-text input whose trimmed text matches a sensitive trigger — in
particular one that also matches an urgent trigger — resets the step to
`choose_domain`, clears `domainId`, and emits exactly the sensitive-path
crisis message, which carries the entry-point cards and differs from the
urgent-path message. -/
theorem sensitive_precedence (kb : KBase) (s : DialogState) (txt : String)
    (hend : s.ended = false)
    (hsen : containsAny (jsTrim txt) SENSITIVE_TRIGGERS = true) :
    handleUserText kb s txt
      = .ok ⟨{ s with
               step := "choose_domain", domainId := none,
               lastQuery := "", offset := 0 },
             some (sensitiveMessage kb s.lang)⟩
    ∧ (sensitiveMessage kb s.lang).cards = entryPointsCards kb s.lang
    ∧ sensitiveMessage kb s.lang ≠ urgentMessage kb s.lang := by
  refine ⟨?_, rfl, ?_⟩
  · have hne : ¬(jsTrim txt = "") := containsAny_trim_ne_empty txt _ hsen
    have h1 : ¬(s.ended = true) := by rw [hend]; exact Bool.false_ne_true
    unfold handleUserText
    rw [if_neg h1, if_neg hne, if_pos hsen]
  · intro heq
    have htext := congrArg AssistantMessage.text heq
    simp only [sensitiveMessage, urgentMessage] at htext
    by_cases hz : s.lang = "zh"
    · rw [if_pos hz, if_pos hz] at htext
      exact absurd htext (by decide)
    · rw [if_neg hz, if_neg hz] at htext
      exact absurd htext (by decide)

/-- Witness for `sensitive_precedence` on the fresh state and the input
`suicide` (which also contains no urgent trigger interference). -/
theorem sensitive_precedence_witness :
    handleUserText kbEmpty (initDialogState "en") "suicide"
      = .ok ⟨{ initDialogState "en" with
               step := "choose_domain", domainId := none,
               lastQuery := "", offset := 0 },
             some (sensitiveMessage kbEmpty "en")⟩ :=
  (sensitive_precedence kbEmpty (initDialogState "en") "suicide" rfl
    (by decide)).1

/-- C1 counterexample: on a state with `ended = true`, the same sensitive
input is answered with the restart/revival message, not the sensitive-path
crisis message, so the claim fails for ended states. -/
theorem sensitive_precedence_ended_counterexample :
    containsAny (jsTrim "suicide") SENSITIVE_TRIGGERS = true
    ∧ stEnded.ended = true
    ∧ (handleUserText kbEmpty stEnded "suicide").toOption.map (fun r => r.message)
      ≠ some (some (sensitiveMessage kbEmpty "en")) := by
  refine ⟨by decide, rfl, ?_⟩
  decide

theorem handleUserText_preserves (kb : KBase) (s : DialogState) (t : String)
    (r : StepRes) (h : handleUserText kb s t = .ok r)
    (hp : s.pageSize = 3) (ho : 0 ≤ s.offset) (hm : s.offset % s.pageSize = 0) :
    r.state.pageSize = 3 ∧ 0 ≤ r.state.offset
      ∧ r.state.offset % r.state.pageSize = 0 := by
  unfold handleUserText at h
  by_cases c1 : s.ended = true
  · rw [if_pos c1, Except.ok.injEq] at h
    subst h
    refine ⟨rfl, by simp [initDialogState], by simp [initDialogState, DEFAULT_PAGE_SIZE]⟩
  · rw [if_neg c1] at h
    by_cases c2 : jsTrim t = ""
    · rw [if_pos c2, Except.ok.injEq] at h
      subst h
      exact ⟨hp, ho, hm⟩
    · rw [if_neg c2] at h
      by_cases c3 : containsAny (jsTrim t) SENSITIVE_TRIGGERS = true
      · rw [if_pos c3, Except.ok.injEq] at h
        subst h
        refine ⟨hp, by simp, by simp⟩
      · rw [if_neg c3] at h
        by_cases c4 : containsAny (jsTrim t) URGENT_TRIGGERS = true
        · rw [if_pos c4, Except.ok.injEq] at h
          subst h
          refine ⟨hp, by simp, by simp⟩
        · rw [if_neg c4] at h
          by_cases c5 : s.step = "choose_domain"
          · rw [if_pos c5] at h
            cases hdet : detectDomainIdFromText (jsTrim t) with
            | some did =>
              rw [hdet] at h
              dsimp only at h
              cases hdb : domainById (some did) with
              | some d =>
                rw [hdb] at h
                dsimp only at h
                rw [Except.ok.injEq] at h
                subst h
                refine ⟨hp, by simp, by simp⟩
              | none =>
                rw [hdb] at h
                exact absurd h (by simp)
            | none =>
              rw [hdet] at h
              dsimp only at h
              cases hsoft : softGuessDomainId (jsTrim t) with
              | some did =>
                rw [hsoft] at h
                dsimp only at h
                cases hdb : domainById (some did) with
                | some d =>
                  rw [hdb] at h
                  dsimp only at h
                  rw [Except.ok.injEq] at h
                  subst h
                  refine ⟨hp, by simp, by simp⟩
                | none =>
                  rw [hdb] at h
                  exact absurd h (by simp)
              | none =>
                rw [hsoft] at h
                dsimp only at h
                rw [Except.ok.injEq] at h
                subst h
                exact ⟨hp, ho, hm⟩
          · rw [if_neg c5] at h
            by_cases c6 : s.step = "choose_focus"
            · rw [if_pos c6, Except.ok.injEq] at h
              subst h
              refine ⟨hp, by simp, by simp⟩
            · rw [if_neg c6, Except.ok.injEq] at h
              subst h
              refine ⟨hp, by simp, by simp⟩

theorem handleAction_preserves (kb : KBase) (s : DialogState)
    (a? : Option JsAction) (r : StepRes) (h : handleAction kb s a? = .ok r)
    (hp : s.pageSize = 3) (ho : 0 ≤ s.offset) (hm : s.offset % s.pageSize = 0) :
    r.state.pageSize = 3 ∧ 0 ≤ r.state.offset
      ∧ r.state.offset % r.state.pageSize = 0 := by
  unfold handleAction at h
  cases a? with
  | none =>
    dsimp only at h
    rw [Except.ok.injEq] at h
    subst h
    exact ⟨hp, ho, hm⟩
  | some a =>
    dsimp only at h
    cases ha : a.typ with
    | none =>
      rw [ha] at h
      dsimp only at h
      rw [Except.ok.injEq] at h
      subst h
      exact ⟨hp, ho, hm⟩
    | some t =>
      rw [ha] at h
      dsimp only at h
      by_cases c0 : t = ""
      · rw [if_pos c0, Except.ok.injEq] at h
        subst h
        exact ⟨hp, ho, hm⟩
      · rw [if_neg c0] at h
        by_cases c1 : t = "RESTART"
        · rw [if_pos c1, Except.ok.injEq] at h
          subst h
          refine ⟨rfl, by simp [initDialogState],
            by simp [initDialogState, DEFAULT_PAGE_SIZE]⟩
        · rw [if_neg c1] at h
          by_cases c2 : t = "END"
          · rw [if_pos c2, Except.ok.injEq] at h
            subst h
            exact ⟨hp, ho, hm⟩
          · rw [if_neg c2] at h
            by_cases c3 : t = "ESCALATE"
            · rw [if_pos c3, Except.ok.injEq] at h
              subst h
              exact ⟨hp, ho, hm⟩
            · rw [if_neg c3] at h
              by_cases c4 : t = "BACK_TOPICS"
              · rw [if_pos c4, Except.ok.injEq] at h
                subst h
                refine ⟨hp, by simp, by simp⟩
              · rw [if_neg c4] at h
                by_cases c5 : t = "URGENT"
                · rw [if_pos c5, Except.ok.injEq] at h
                  subst h
                  refine ⟨hp, by simp, by simp⟩
                · rw [if_neg c5] at h
                  by_cases c6 : t = "SENSITIVE"
                  · rw [if_pos c6, Except.ok.injEq] at h
                    subst h
                    refine ⟨hp, by simp, by simp⟩
                  · rw [if_neg c6] at h
                    by_cases c7 : t = "SET_DOMAIN"
                    · rw [if_pos c7] at h
                      cases hdb : domainById a.domainId with
                      | some d =>
                        rw [hdb] at h
                        dsimp only at h
                        rw [Except.ok.injEq] at h
                        subst h
                        refine ⟨hp, by simp, by simp⟩
                      | none =>
                        rw [hdb] at h
                        exact absurd h (by simp)
                    · rw [if_neg c7] at h
                      by_cases c8 : t = "SET_FOCUS"
                      · rw [if_pos c8] at h
                        split at h
                        · rw [Except.ok.injEq] at h
                          subst h
                          refine ⟨hp, by simp, by simp⟩
                        · rw [Except.ok.injEq] at h
                          subst h
                          refine ⟨hp, by simp, by simp⟩
                      · rw [if_neg c8] at h
                        by_cases c9 : t = "ADD_QUERY"
                        · rw [if_pos c9, Except.ok.injEq] at h
                          subst h
                          refine ⟨hp, by simp, by simp⟩
                        · rw [if_neg c9] at h
                          by_cases c10 : t = "MORE_RESULTS"
                          · rw [if_pos c10] at h
                            by_cases cq : s.lastQuery = ""
                            · rw [if_pos cq, Except.ok.injEq] at h
                              subst h
                              exact ⟨hp, ho, hm⟩
                            · rw [if_neg cq, Except.ok.injEq] at h
                              subst h
                              rw [hp] at hm
                              refine ⟨hp, ?_, ?_⟩
                              · simp only [jsOrInt_zero, hp]
                                simp [jsOrInt]
                                omega
                              · simp only [jsOrInt_zero, hp]
                                simp [jsOrInt]
                                omega
                          · rw [if_neg c10, Except.ok.injEq] at h
                            subst h
                            exact ⟨hp, ho, hm⟩

/-- C5: in every state reachable from `initDialogState` under free-text turns
and actions, `pageSize` keeps its initial value 3 and `offset` is a
non-negative multiple of `pageSize` (every transition resets it to 0 or adds
`pageSize`). -/
theorem offset_invariant (kb : KBase) (s : DialogState) (h : Reachable kb s) :
    s.pageSize = 3 ∧ 0 ≤ s.offset ∧ s.offset % s.pageSize = 0 := by
  induction h with
  | init lang => exact ⟨rfl, by simp [initDialogState], by simp [initDialogState]⟩
  | text s t r hr hstep ih =>
    exact handleUserText_preserves kb s t r hstep ih.1 ih.2.1 ih.2.2
  | action s a r hr hstep ih =>
    exact handleAction_preserves kb s a r hstep ih.1 ih.2.1 ih.2.2

/-- Witness for `offset_invariant` at the initial state. -/
theorem offset_invariant_witness :
    (initDialogState "en").pageSize = 3 ∧ 0 ≤ (initDialogState "en").offset
      ∧ (initDialogState "en").offset % (initDialogState "en").pageSize = 0 :=
  offset_invariant kbEmpty (initDialogState "en") (Reachable.init "en")

theorem foldBest_spec (f : DomainRec → Nat) :
    ∀ (ds : List DomainRec) (b : Option String × Nat),
      ds.foldl (fun best d => if best.2 < f d then (some d.id, f d) else best) b
        = if ds.foldr (fun d m => max (f d) m) 0 ≤ b.2 then b
          else ((ds.find? fun d =>
                  ds.foldr (fun d m => max (f d) m) 0 ≤ f d).map (·.id),
                ds.foldr (fun d m => max (f d) m) 0) := by
  intro ds
  induction ds with
  | nil => intro b; simp
  | cons d ds ih =>
    intro b
    simp only [List.foldl_cons, List.foldr_cons]
    by_cases hbd : b.2 < f d
    · rw [if_pos hbd, ih]
      by_cases hdm : ds.foldr (fun d m => max (f d) m) 0 ≤ f d
      · have hM : max (f d) (ds.foldr (fun d m => max (f d) m) 0) = f d := by omega
        rw [if_pos (by simpa using hdm)]
        simp only [hM]
        rw [if_neg (by omega), List.find?_cons_of_pos _ (by simp)]
        rfl
      · have hM : max (f d) (ds.foldr (fun d m => max (f d) m) 0)
            = ds.foldr (fun d m => max (f d) m) 0 := by omega
        rw [if_neg (by simpa using hdm)]
        simp only [hM]
        rw [if_neg (by omega), List.find?_cons_of_neg _ (by simp; omega)]
    · rw [if_neg hbd, ih]
      by_cases hm : ds.foldr (fun d m => max (f d) m) 0 ≤ b.2
      · rw [if_pos hm, if_pos (by simp; omega)]
      · have hM : max (f d) (ds.foldr (fun d m => max (f d) m) 0)
            = ds.foldr (fun d m => max (f d) m) 0 := by omega
        rw [if_neg hm]
        simp only [hM]
        rw [if_neg hm, List.find?_cons_of_neg _ (by simp; omega)]

/-- C7: the soft classifier's per-domain score is 3 per hint phrase contained
in the text, plus 1 per token contained in some hint phrase, plus 1 when the
text contains the domain id; the classifier returns the first domain (in
table order) achieving the maximal score provided that score reaches 3, and
`none` otherwise. -/
theorem softGuess_characterization :
    (∀ raw : String,
      softGuessDomainId raw
        = (if 3 ≤ DOMAIN.foldr (fun d m =>
                max (domainSoftScore (strLower (normalizeText raw))
                  (tokenize (strLower (normalizeText raw))) d) m) 0
           then (DOMAIN.find? fun d =>
                  DOMAIN.foldr (fun d m =>
                    max (domainSoftScore (strLower (normalizeText raw))
                      (tokenize (strLower (normalizeText raw))) d) m) 0
                    ≤ domainSoftScore (strLower (normalizeText raw))
                        (tokenize (strLower (normalizeText raw))) d).map (·.id)
           else none))
    ∧ (∀ (t : String) (toks : List String) (d : DomainRec),
        domainSoftScore t toks d
          = 3 * (DOMAIN_HINTS d.id).countP (fun h2 => strIncludes t (hintNorm h2))
            + toks.countP (fun tok =>
                (DOMAIN_HINTS d.id).any fun h2 => strIncludes (hintNorm h2) tok)
            + (if strIncludes t d.id then 1 else 0)) := by
  constructor
  · intro raw
    unfold softGuessDomainId
    dsimp only
    rw [foldBest_spec
      (fun d => domainSoftScore (strLower (normalizeText raw))
        (tokenize (strLower (normalizeText raw))) d) DOMAIN
      ((none : Option String), 0)]
    by_cases hM : DOMAIN.foldr (fun d m =>
        max (domainSoftScore (strLower (normalizeText raw))
          (tokenize (strLower (normalizeText raw))) d) m) 0 ≤ 0
    · rw [if_pos hM]
      rw [if_neg (by omega), if_neg (by omega)]
    · rw [if_neg hM]
  · intro t toks d
    unfold domainSoftScore
    dsimp only
    rw [foldl_add_count, foldl_add_count]
    by_cases hid : strIncludes t d.id <;> simp [hid]

theorem jsSlice_drop_take {α : Type} (l : List α) (a p : Int)
    (ha : 0 ≤ a) (hp : 0 ≤ p) :
    jsSlice l a (a + p) = (l.drop a.toNat).take p.toNat := by
  unfold jsSlice
  dsimp only
  rw [if_neg (by omega), if_neg (by omega)]
  by_cases hlen : a ≤ (l.length : Int)
  · rw [min_eq_left hlen, min_def]
    split
    · rw [List.take_eq_take]
      rw [List.length_drop]
      omega
    · rw [List.take_eq_take]
      rw [List.length_drop]
      omega
  · rw [min_eq_right (by omega), min_eq_right (by omega)]
    rw [List.drop_eq_nil_of_le (by omega), List.drop_eq_nil_of_le (by omega)]
    simp

theorem pages_concat {α : Type} (l : List α) :
    ∀ m : Nat, (List.range (m + 1)).flatMap (fun k => (l.drop (3 * k)).take 3)
      = l.take (3 * m + 3) := by
  intro m
  induction m with
  | zero => simp [List.range_succ, List.flatMap_singleton]
  | succ n ih =>
    rw [List.range_succ, List.flatMap_append, ih, List.flatMap_singleton]
    have h1 : 3 * (n + 1) + 3 = (3 * n + 3) + 3 := by ring
    have h2 : 3 * (n + 1) = 3 * n + 3 := by ring
    rw [h1, h2, List.take_add l (3 * n + 3) 3]

theorem buildResults_cards (kb : KBase) (lang : String) (dId : Option String)
    (focus q : String) (o : Nat)
    (ht : 0 < (retrieveAllSchemes kb q dId).matched.length) :
    (buildResultsMessage kb lang dId focus q (o : Int) 3).cards
      = (((retrieveAllSchemes kb q dId).matched.drop o).take 3).map
          (fun x => formatScheme x.s lang focus) := by
  unfold buildResultsMessage
  dsimp only
  rw [if_neg (by omega)]
  by_cases hlt : ((retrieveAllSchemes kb q dId).matched.length : Int) ≤ (o : Int)
  · rw [if_pos hlt]
    have hc : (noMoreResultsMessage lang dId).cards = [] := rfl
    rw [hc, List.drop_eq_nil_of_le (by omega)]
    simp
  · rw [if_neg hlt]
    dsimp only
    rw [show ((o : Int) + 3) = (o : Int) + (3 : Int) from rfl,
      jsSlice_drop_take _ _ _ (by omega) (by omega), Int.toNat_natCast]
    rw [show ((3 : Int)).toNat = 3 from rfl]
    rw [List.map_map]
    rfl

theorem buildResults_noMore (kb : KBase) (lang : String) (dId : Option String)
    (focus q : String) (o : Int)
    (ht : 0 < (retrieveAllSchemes kb q dId).matched.length)
    (h : ((retrieveAllSchemes kb q dId).matched.length : Int) ≤ o) :
    buildResultsMessage kb lang dId focus q o 3 = noMoreResultsMessage lang dId := by
  unfold buildResultsMessage
  dsimp only
  rw [if_neg (by omega), if_pos h]

theorem moreResults_step (kb : KBase) (s : DialogState)
    (hq : s.lastQuery ≠ "") (hp : s.pageSize = 3) :
    handleAction kb s (some (act "MORE_RESULTS"))
      = .ok ⟨{ s with offset := jsOrInt s.offset 0 + 3 },
             some (buildResultsMessage kb s.lang s.domainId s.focus s.lastQuery
               (jsOrInt s.offset 0 + 3) 3)⟩ := by
  unfold handleAction
  dsimp only [act]
  rw [if_neg (by decide), if_neg (by decide), if_neg (by decide),
    if_neg (by decide), if_neg (by decide), if_neg (by decide),
    if_neg (by decide), if_neg (by decide), if_neg (by decide),
    if_neg (by decide), if_pos rfl, if_neg hq, hp]
  norm_num [jsOrInt, DEFAULT_PAGE_SIZE]

/-- C2 (amended): from a state with a non-empty `lastQuery`, `pageSize` 3 and
at least one ranked match, every `MORE_RESULTS` advances `offset` by exactly
`pageSize` and re-renders from the same ranked list; the card pages at
offsets 0, 3, ..., 3m concatenate to exactly the length-`3m+3` prefix of the
ranked list (formatted), every prefix of that list is duplicate-free when the
knowledge base is, and any offset at or past the total yields precisely the
"no more results" escalation message (whose card page is empty by
construction, distinct from a results page). -/
theorem pagination_spec (kb : KBase) (s : DialogState)
    (hq : s.lastQuery ≠ "") (hp : s.pageSize = 3)
    (ht : 0 < (retrieveAllSchemes kb s.lastQuery s.domainId).matched.length)
    (hnd : kb.schemes.Nodup) :
    (∀ k : Nat,
      handleAction kb { s with offset := 3 * (k : Int) } (some (act "MORE_RESULTS"))
        = .ok ⟨{ s with offset := 3 * (k : Int) + 3 },
               some (buildResultsMessage kb s.lang s.domainId s.focus s.lastQuery
                 (3 * (k : Int) + 3) 3)⟩)
    ∧ (∀ m : Nat,
        (List.range (m + 1)).flatMap (fun k =>
          (buildResultsMessage kb s.lang s.domainId s.focus s.lastQuery
            ((3 * k : Nat) : Int) 3).cards)
          = ((retrieveAllSchemes kb s.lastQuery s.domainId).matched.take
              (3 * m + 3)).map (fun x => formatScheme x.s s.lang s.focus))
    ∧ (∀ n : Nat,
        ((retrieveAllSchemes kb s.lastQuery s.domainId).matched.take n).Nodup)
    ∧ (∀ o : Int,
        ((retrieveAllSchemes kb s.lastQuery s.domainId).matched.length : Int) ≤ o →
        buildResultsMessage kb s.lang s.domainId s.focus s.lastQuery o 3
          = noMoreResultsMessage s.lang s.domainId) := by
  refine ⟨?_, ?_, ?_, ?_⟩
  · intro k
    rw [moreResults_step kb { s with offset := 3 * (k : Int) } hq hp]
    dsimp only
    rw [jsOrInt_zero]
  · intro m
    have hfun : (fun k : Nat =>
        (buildResultsMessage kb s.lang s.domainId s.focus s.lastQuery
          ((3 * k : Nat) : Int) 3).cards)
        = (fun k : Nat =>
            (((retrieveAllSchemes kb s.lastQuery s.domainId).matched.drop
              (3 * k)).take 3).map (fun x => formatScheme x.s s.lang s.focus)) :=
      funext fun k => buildResults_cards kb s.lang s.domainId s.focus
        s.lastQuery (3 * k) ht
    rw [hfun, (List.map_flatMap _ _ _).symm, pages_concat]
  · intro n
    have h0 : (scoredList kb s.lastQuery s.domainId).Nodup := by
      unfold scoredList
      dsimp only
      exact List.Nodup.map (fun a b hab => congrArg ScoredS.s hab) hnd
    have h1 : (sortDesc (scoredList kb s.lastQuery s.domainId)).Nodup :=
      (sortDesc_perm _).nodup_iff.mpr h0
    have h2 : (retrieveAllSchemes kb s.lastQuery s.domainId).matched.Nodup := by
      have : (retrieveAllSchemes kb s.lastQuery s.domainId).matched
          = ((sortDesc (scoredList kb s.lastQuery s.domainId)).filter
              fun x => 0 < x.score).take MAX_MATCHES_CAP := rfl
      rw [this]
      exact List.Nodup.sublist (List.take_sublist _ _) (h1.filter _)
    exact List.Nodup.sublist (List.take_sublist _ _) h2
  · intro o h
    exact buildResults_noMore kb s.lang s.domainId s.focus s.lastQuery o ht h

/-- Witness for `pagination_spec`: one `MORE_RESULTS` from page one on a
one-scheme knowledge base. -/
theorem pagination_spec_witness :
    handleAction kbOne { stAid with offset := 3 * ((0 : Nat) : Int) }
        (some (act "MORE_RESULTS"))
      = .ok ⟨{ stAid with offset := 3 * ((0 : Nat) : Int) + 3 },
             some (buildResultsMessage kbOne stAid.lang stAid.domainId
               stAid.focus stAid.lastQuery (3 * ((0 : Nat) : Int) + 3) 3)⟩ :=
  (pagination_spec kbOne stAid (by decide) rfl (by decide) (by decide)).1 0

/-- C2 counterexample: with a query that matches nothing, `offset` already
equals the total match count (both 0), yet requesting more yields the
zero-match fallback message, not the "no more results" message that the
claim requires once `offset ≥ total`. -/
theorem pagination_counterexample :
    ((retrieveAllSchemes kbEmpty "zz" none).matched.length : Int) ≤ stNoHit.offset
    ∧ (handleAction kbEmpty stNoHit (some (act "MORE_RESULTS"))).toOption.map
        (fun r => r.message)
      ≠ some (some (noMoreResultsMessage "en" none)) := by
  constructor
  · decide
  · decide

theorem lowChar_toNat_of (c : Char) (h1 : 65 ≤ c.toNat) (h2 : c.toNat ≤ 90) :
    (lowChar c).toNat = c.toNat + 32 := by
  unfold lowChar
  rw [if_pos ⟨h1, h2⟩]
  interval_cases hc : c.toNat <;> decide

theorem lowChar_fix_of_not (c : Char) (h : ¬(65 ≤ c.toNat ∧ c.toNat ≤ 90)) :
    lowChar c = c := by
  unfold lowChar
  rw [if_neg h]

theorem lowChar_idem (c : Char) : lowChar (lowChar c) = lowChar c := by
  by_cases h : 65 ≤ c.toNat ∧ c.toNat ≤ 90
  · have ht := lowChar_toNat_of c h.1 h.2
    exact lowChar_fix_of_not _ (by omega)
  · rw [lowChar_fix_of_not c h]
    exact lowChar_fix_of_not c h

theorem map_id_of {α : Type} (f : α → α) (l : List α) (h : ∀ c ∈ l, f c = c) :
    l.map f = l := by
  induction l with
  | nil => rfl
  | cons x xs ih =>
    rw [List.map_cons, h x (by simp), ih fun c hc => h c (by simp [hc])]

theorem mem_intercalSp (ws : List (List Char)) (c : Char)
    (h : c ∈ intercalSp ws) : (∃ w ∈ ws, c ∈ w) ∨ c = ' ' := by
  induction ws with
  | nil => simp [intercalSp] at h
  | cons w ws ih =>
    cases ws with
    | nil =>
      simp only [intercalSp] at h
      exact Or.inl ⟨w, by simp, h⟩
    | cons w2 ws2 =>
      rw [show intercalSp (w :: w2 :: ws2) = w ++ ' ' :: intercalSp (w2 :: ws2)
        from rfl] at h
      rcases List.mem_append.mp h with h | h
      · exact Or.inl ⟨w, by simp, h⟩
      · rcases List.mem_cons.mp h with h | h
        · exact Or.inr h
        · rcases ih h with ⟨w', hw', hc⟩ | h
          · exact Or.inl ⟨w', by simp [hw'], hc⟩
          · exact Or.inr h

theorem splitWsGo_ne : ∀ (l acc : List Char), ∀ w ∈ splitWsGo acc l, w ≠ [] := by
  intro l
  induction l with
  | nil =>
    intro acc w hw
    unfold splitWsGo at hw
    split at hw
    · simp at hw
    · rename_i hne
      rw [List.mem_singleton] at hw
      subst hw
      simpa [List.isEmpty_iff] using hne
  | cons c cs ih =>
    intro acc w hw
    unfold splitWsGo at hw
    split at hw
    · split at hw
      · exact ih [] w hw
      · rename_i hne
        rcases List.mem_cons.mp hw with rfl | hw
        · simpa [List.isEmpty_iff] using hne
        · exact ih [] w hw
    · exact ih (c :: acc) w hw

theorem splitWsGo_chars : ∀ (l acc : List Char),
    (∀ c ∈ acc, jsWs c = false) →
    ∀ w ∈ splitWsGo acc l, ∀ c ∈ w, (c ∈ acc ∨ c ∈ l) ∧ jsWs c = false := by
  intro l
  induction l with
  | nil =>
    intro acc hacc w hw c hc
    unfold splitWsGo at hw
    split at hw
    · simp at hw
    · rw [List.mem_singleton] at hw
      subst hw
      rw [List.mem_reverse] at hc
      exact ⟨Or.inl hc, hacc c hc⟩
  | cons c0 cs ih =>
    intro acc hacc w hw c hc
    unfold splitWsGo at hw
    split at hw
    · split at hw
      · obtain ⟨hmem, hws⟩ := ih [] (by simp) w hw c hc
        refine ⟨?_, hws⟩
        rcases hmem with h | h
        · simp at h
        · exact Or.inr (by simp [h])
      · rcases List.mem_cons.mp hw with rfl | hw
        · rw [List.mem_reverse] at hc
          exact ⟨Or.inl hc, hacc c hc⟩
        · obtain ⟨hmem, hws⟩ := ih [] (by simp) w hw c hc
          refine ⟨?_, hws⟩
          rcases hmem with h | h
          · simp at h
          · exact Or.inr (by simp [h])
    · rename_i hc0
      have hacc2 : ∀ x ∈ c0 :: acc, jsWs x = false := by
        intro x hx
        rcases List.mem_cons.mp hx with rfl | hx
        · simpa using hc0
        · exact hacc x hx
      obtain ⟨hmem, hws⟩ := ih (c0 :: acc) hacc2 w hw c hc
      refine ⟨?_, hws⟩
      rcases hmem with h | h
      · rcases List.mem_cons.mp h with rfl | h
        · exact Or.inr (by simp)
        · exact Or.inl h
      · exact Or.inr (by simp [h])

theorem splitWsGo_run (w : List Char) (hw : ∀ c ∈ w, jsWs c = false) :
    ∀ (rest acc : List Char),
      splitWsGo acc (w ++ rest) = splitWsGo (w.reverse ++ acc) rest := by
  induction w with
  | nil => intro rest acc; simp
  | cons c w' ih =>
    intro rest acc
    rw [List.cons_append]
    unfold splitWsGo
    rw [if_neg (by simpa using hw c (by simp))]
    rw [ih (fun x hx => hw x (by simp [hx])) rest (c :: acc)]
    rw [show (c :: w').reverse ++ acc = w'.reverse ++ c :: acc by simp]
    exact splitWsGo.eq_def _ _

theorem splitWs_join : ∀ ws : List (List Char),
    (∀ w ∈ ws, w ≠ [] ∧ ∀ c ∈ w, jsWs c = false) →
    splitWs (intercalSp ws) = ws := by
  intro ws
  induction ws with
  | nil => intro _; rfl
  | cons w ws ih =>
    intro h
    obtain ⟨hne, hwc⟩ := h w (by simp)
    cases ws with
    | nil =>
      show splitWsGo [] (intercalSp [w]) = [w]
      rw [show intercalSp [w] = w ++ [] by simp [intercalSp]]
      rw [splitWsGo_run w hwc [] []]
      unfold splitWsGo
      rw [List.append_nil]
      rw [if_neg (by simpa [List.isEmpty_iff] using hne)]
      simp
    | cons w2 ws2 =>
      show splitWsGo [] (intercalSp (w :: w2 :: ws2)) = _
      rw [show intercalSp (w :: w2 :: ws2) = w ++ ' ' :: intercalSp (w2 :: ws2)
        from rfl]
      rw [splitWsGo_run w hwc _ []]
      unfold splitWsGo
      rw [if_pos (by decide)]
      rw [if_neg (by simpa [List.isEmpty_iff] using hne)]
      rw [show splitWsGo [] (intercalSp (w2 :: ws2)) = w2 :: ws2 from
        ih fun x hx => h x (by simp [hx])]
      simp

theorem tokenize_shape (raw : String) :
    ∀ w ∈ tokenize raw, w.data ≠ [] ∧ STOPWORDS.contains w = false
      ∧ ∀ c ∈ w.data, jsWs c = false ∧ keepChar c = true ∧ lowChar c = c := by
  intro w hw
  unfold tokenize at hw
  dsimp only at hw
  generalize hN : normalizeText raw = N at hw
  rw [List.mem_filter] at hw
  obtain ⟨hw, hstop⟩ := hw
  rw [List.mem_map] at hw
  obtain ⟨wl, hwl, rfl⟩ := hw
  refine ⟨splitWsGo_ne _ [] wl hwl, by simpa using hstop, ?_⟩
  intro c hc
  obtain ⟨hmem, hws⟩ := splitWsGo_chars _ [] (by simp) wl hwl c hc
  have hct : c ∈ (strLower N).data.map
      (fun c => if keepChar c then c else ' ') := by
    rcases hmem with h | h
    · simp at h
    · exact h
  rw [List.mem_map] at hct
  obtain ⟨c0, hc0, hstrip⟩ := hct
  by_cases hk : keepChar c0
  · rw [if_pos hk] at hstrip
    subst hstrip
    refine ⟨hws, hk, ?_⟩
    have hc0' : c0 ∈ N.data.map lowChar := hc0
    rw [List.mem_map] at hc0'
    obtain ⟨c1, _, rfl⟩ := hc0'
    exact lowChar_idem c1
  · rw [if_neg hk] at hstrip
    subst hstrip
    simp [jsWs] at hws

/-- C6 (amended): whenever the synonym-normalization pass leaves the
space-joined token output of `tokenize` unchanged, re-tokenizing that joined
output returns exactly the original token list.  (Unconditional idempotence
fails: the replace-first-only synonym rewrite can leave a second trigger
occurrence in the token output, as the counterexample shows.) -/
theorem tokenize_idem_conditional (raw : String)
    (h : normalizeText (joinSp (tokenize raw)) = joinSp (tokenize raw)) :
    tokenize (joinSp (tokenize raw)) = tokenize raw := by
  have hshape := tokenize_shape raw
  generalize hg : tokenize raw = toks at h hshape ⊢
  unfold tokenize
  dsimp only
  rw [h]
  have hjoin : (joinSp toks).data = intercalSp (toks.map String.data) := rfl
  have hcm2 : ∀ c ∈ (joinSp toks).data, keepChar c = true ∧ lowChar c = c := by
    intro c hc
    rw [hjoin] at hc
    rcases mem_intercalSp _ c hc with ⟨wl, hwl, hcw⟩ | rfl
    · rw [List.mem_map] at hwl
      obtain ⟨w, hwmem, rfl⟩ := hwl
      exact ⟨((hshape w hwmem).2.2 c hcw).2.1, ((hshape w hwmem).2.2 c hcw).2.2⟩
    · exact ⟨by decide, by decide⟩
  have hlow : strLower (joinSp toks) = joinSp toks := by
    show String.mk ((joinSp toks).data.map lowChar) = _
    rw [map_id_of _ _ fun c hc => (hcm2 c hc).2]
  rw [hlow]
  rw [map_id_of _ _ fun c hc => by rw [if_pos (hcm2 c hc).1]]
  rw [hjoin]
  rw [splitWs_join (toks.map String.data) (by
    intro wl hwl
    rw [List.mem_map] at hwl
    obtain ⟨w, hwmem, rfl⟩ := hwl
    exact ⟨(hshape w hwmem).1, fun c hc => ((hshape w hwmem).2.2 c hc).1⟩)]
  rw [List.map_map]
  rw [show ((fun l => String.mk l) ∘ String.data) = id from funext fun w => rfl]
  rw [List.map_id]
  apply List.filter_eq_self.mpr
  intro w hw
  simpa using (hshape w hw).2.1

/-- Witness for `tokenize_idem_conditional` at the input `evicted`, whose
token output `housing` is left unchanged by the synonym pass. -/
theorem tokenize_idem_conditional_witness :
    normalizeText (joinSp (tokenize "evicted")) = joinSp (tokenize "evicted")
    ∧ tokenize (joinSp (tokenize "evicted")) = tokenize "evicted" :=
  ⟨by decide, tokenize_idem_conditional "evicted" (by decide)⟩

/-- C6 counterexample: `tokenize "evicted evicted"` is `[housing, evicted]`
(the synonym rule rewrites only the first occurrence), and re-tokenizing the
joined output rewrites the surviving occurrence, giving `[housing, housing]`:
`tokenize` is not idempotent on its own output. -/
theorem tokenize_not_idempotent :
    tokenize (joinSp (tokenize "evicted evicted")) ≠ tokenize "evicted evicted" := by
  decide
